import Mathlib

/-!
A shallow embedding of `xlsx_version/parse_workouts.py`.

The script reads `workouts.xlsx` (all sheets), normalizes NaN cells to
`None`, dumps the per-sheet records to `workouts_data.json` (dates become
ISO-8601 strings via `convert_for_json`), extracts reference sets from the
columns labelled `Unnamed: 3`, `Unnamed: 5`, `Unnamed: 9`, `Unnamed: 8`
and `Unnamed: 7`, and writes three sorted markdown files.

Cell values are modelled by `Value`; numbers are modelled by `Int`
(no claim depends on float formatting).  The effectful program is modelled
as a pure function from a file-system record `FS` to a `RunOutcome`.
-/

/-- Python `datetime.date`: year, month, day. -/
structure PyDate where
  year : Nat
  month : Nat
  day : Nat
deriving DecidableEq, Repr

/-- Python `datetime.datetime`; sub-second fields are omitted (the model's
workbooks carry none, and no claim depends on them). -/
structure PyDatetime where
  date : PyDate
  hour : Nat
  minute : Nat
  second : Nat
deriving DecidableEq, Repr

/-- Zero-pad a number to two digits, as Python's isoformat does. -/
def pad2 (n : Nat) : String :=
  if n < 10 then "0" ++ toString n else toString n

/-- Zero-pad a year to four digits, as Python's isoformat does. -/
def pad4 (n : Nat) : String :=
  if n < 10 then "000" ++ toString n
  else if n < 100 then "00" ++ toString n
  else if n < 1000 then "0" ++ toString n
  else toString n

/-- Python `date.isoformat()`: `YYYY-MM-DD`. -/
def PyDate.isoformat (d : PyDate) : String :=
  pad4 d.year ++ "-" ++ pad2 d.month ++ "-" ++ pad2 d.day

/-- Python `datetime.isoformat()`: `YYYY-MM-DDTHH:MM:SS`. -/
def PyDatetime.isoformat (t : PyDatetime) : String :=
  t.date.isoformat ++ "T" ++ pad2 t.hour ++ ":" ++ pad2 t.minute ++ ":" ++ pad2 t.second

/-- A Python cell value as it sits in `sheets_data` after loading. -/
inductive Value where
  | vStr (s : String)
  | vNum (n : Int)
  | vBool (b : Bool)
  | vDate (d : PyDate)
  | vDatetime (t : PyDatetime)
  | vNone
deriving DecidableEq, Repr

/-- Python truthiness of a cell value (`if row[...]:`). -/
def Value.truthy : Value → Bool
  | .vStr s => !(s == "")
  | .vNum n => !(n == 0)
  | .vBool b => b
  | .vDate _ => true
  | .vDatetime _ => true
  | .vNone => false

/-- Embeds `convert_for_json`: a `datetime.datetime` or `datetime.date`
value becomes its `isoformat()` string, every other value is returned
unchanged. -/
def convert_for_json : Value → Value
  | .vDate d => .vStr d.isoformat
  | .vDatetime t => .vStr t.isoformat
  | v => v

/-- A JSON value, as written to `workouts_data.json`. -/
inductive JVal where
  | jnull
  | jbool (b : Bool)
  | jnum (n : Int)
  | jstr (s : String)
  | jarr (xs : List JVal)
  | jobj (kvs : List (String × JVal))

/-- The JSON encoding of the natively serializable Python scalars
(str, numbers, bool, None); `none` for types `json.dump` hands to its
`default` hook. -/
def nativeJson : Value → Option JVal
  | .vStr s => some (.jstr s)
  | .vNum n => some (.jnum n)
  | .vBool b => some (.jbool b)
  | .vNone => some .jnull
  | _ => none

/-- How `json.dump(..., default=convert_for_json)` serializes one scalar:
native types directly, anything else through `convert_for_json` first.
The final fallback is unreachable because `convert_for_json` maps every
non-native value (date, datetime) to a string. -/
def dumpLeaf (v : Value) : JVal :=
  match nativeJson v with
  | some j => j
  | none =>
    match nativeJson (convert_for_json v) with
    | some j => j
    | none => .jnull

/-- A Python object as handed to `json.dump`: nested lists and dicts over
scalar cells. -/
inductive PyObj where
  | leaf (v : Value)
  | arr (xs : List PyObj)
  | dict (kvs : List (String × PyObj))

mutual

/-- Recursive serialization performed by `json.dump`. -/
def jsonDump : PyObj → JVal
  | .leaf v => dumpLeaf v
  | .arr xs => .jarr (jsonDumpList xs)
  | .dict kvs => .jobj (jsonDumpKVs kvs)

/-- Serialization of a Python list, element by element. -/
def jsonDumpList : List PyObj → List JVal
  | [] => []
  | x :: xs => jsonDump x :: jsonDumpList xs

/-- Serialization of a Python dict, entry by entry. -/
def jsonDumpKVs : List (String × PyObj) → List (String × JVal)
  | [] => []
  | kv :: kvs => (kv.1, jsonDump kv.2) :: jsonDumpKVs kvs

end

/-- One step into a nested structure: a list index or a dict/object key. -/
inductive PathStep where
  | aidx (i : Nat)
  | okey (k : String)

/-- Navigate a Python object along a path of indices and keys. -/
def PyObj.getPath : PyObj → List PathStep → Option PyObj
  | o, [] => some o
  | .arr xs, .aidx i :: p =>
    match xs[i]? with
    | some x => x.getPath p
    | none => none
  | .dict kvs, .okey k :: p =>
    match kvs.find? (fun kv => kv.1 == k) with
    | some kv => kv.2.getPath p
    | none => none
  | _, _ => none

/-- Navigate a JSON value along a path of indices and keys. -/
def JVal.getPath : JVal → List PathStep → Option JVal
  | j, [] => some j
  | .jarr xs, .aidx i :: p =>
    match xs[i]? with
    | some x => x.getPath p
    | none => none
  | .jobj kvs, .okey k :: p =>
    match kvs.find? (fun kv => kv.1 == k) with
    | some kv => kv.2.getPath p
    | none => none
  | _, _ => none

/-- A raw cell as pandas reads it: a value, or NaN (empty cells load as
NaN). -/
inductive RawValue where
  | cell (v : Value)
  | nan
deriving DecidableEq, Repr

/-- Embeds `df.where(pd.notna(df), None)` at one cell: NaN becomes None. -/
def normalizeCell : RawValue → Value
  | .cell v => v
  | .nan => .vNone

/-- A row as read from the sheet: column label to raw cell, in column
order (`to_dict(orient='records')`). -/
abbrev RawRow := List (String × RawValue)

/-- A row of `sheets_data`: column label to normalized cell. -/
abbrev Row := List (String × Value)

/-- One sheet of the workbook: its name and its rows in order. -/
structure RawSheet where
  name : String
  rows : List RawRow
deriving DecidableEq, Repr

/-- NaN-normalization of a whole row. -/
def normalizeRow (r : RawRow) : Row :=
  r.map fun kv => (kv.1, normalizeCell kv.2)

/-- Python dict assignment `d[k] = v`: overwrite in place when the key is
present, append otherwise. -/
def dictInsert {α : Type} (d : List (String × α)) (k : String) (v : α) :
    List (String × α) :=
  if d.any (fun kv => kv.1 == k) then
    d.map fun kv => if kv.1 == k then (k, v) else kv
  else d ++ [(k, v)]

/-- Embeds the sheet-reading loop: `sheets_data[sheet_name] = records`
for every sheet, with NaN cells normalized to None. -/
def readSheets (wb : List RawSheet) : List (String × List Row) :=
  wb.foldl (fun d s => dictInsert d s.name (s.rows.map normalizeRow)) []

/-- One row record as a Python object. -/
def rowToObj (r : Row) : PyObj :=
  .dict (r.map fun kv => (kv.1, .leaf kv.2))

/-- The full `sheets_data` mapping as the Python object handed to
`json.dump`. -/
def sheetsToObj (d : List (String × List Row)) : PyObj :=
  .dict (d.map fun nr => (nr.1, .arr (nr.2.map rowToObj)))

/-- ASCII whitespace as stripped by `str.strip()` with no argument
(non-ASCII Unicode whitespace is omitted from the model; no claim uses
it). -/
def isPySpace (c : Char) : Bool :=
  c == ' ' || c == '\t' || c == '\n' || c == '\r' || c == '\x0b' || c == '\x0c'

/-- Remove leading and trailing whitespace characters. -/
def stripChars (l : List Char) : List Char :=
  List.rdropWhile isPySpace (List.dropWhile isPySpace l)

/-- Python `str.strip()`. -/
def pyStrip (s : String) : String :=
  ⟨stripChars s.data⟩

/-- Accumulator pass for `str.split(',')`. -/
def splitCommaAux : List Char → List Char → List (List Char)
  | [], cur => [cur.reverse]
  | c :: cs, cur =>
    if c == ',' then cur.reverse :: splitCommaAux cs []
    else splitCommaAux cs (c :: cur)

/-- Python `str.split(',')`: split at every comma; the empty string yields
one empty segment. -/
def pySplitComma (s : String) : List String :=
  (splitCommaAux s.data []).map fun l => ⟨l⟩

/-- The four reference sets.  Python sets are unordered and deduplicated;
the model keeps insertion order, and the program only observes the sets
through `sorted(...)`, so only membership matters.  The accessory set
holds `String` because every insertion into it passes through
`str.strip()`. -/
structure RefSets where
  main_movements : List Value
  accessory_movements : List String
  workout_formats : List Value
  intensity_levels : List Value
deriving DecidableEq, Repr

/-- The four sets start out empty. -/
def emptyRefSets : RefSets :=
  ⟨[], [], [], []⟩

/-- Python `set.add`: membership-tested insertion. -/
def setAdd {α : Type} [DecidableEq α] (l : List α) (x : α) : List α :=
  if x ∈ l then l else l ++ [x]

/-- The uncaught Python exceptions the script can raise past the
missing-file check. -/
inductive PyErr where
  | attributeError
  | typeError
deriving DecidableEq, Repr

/-- Embeds `'k' in row and row['k']` followed by the lookup: the first
cell under the label, if any. -/
def rowGet (row : Row) (k : String) : Option Value :=
  (row.find? (fun kv => kv.1 == k)).map fun kv => kv.2

/-- The `Unnamed: 3` block: the whole truthy cell value joins the main
movements, with no stripping and no splitting. -/
def addMainMovement (S : RefSets) (row : Row) : RefSets :=
  match rowGet row "Unnamed: 3" with
  | some v =>
    if v.truthy then { S with main_movements := setAdd S.main_movements v } else S
  | none => S

/-- An accessory block (`Unnamed: 5` or `Unnamed: 9`): the truthy cell is
split on commas and each stripped segment joins the accessory set;
`.split` on a non-string raises AttributeError. -/
def addAccessoryFrom (label : String) (S : RefSets) (row : Row) :
    Except PyErr RefSets :=
  match rowGet row label with
  | some v =>
    if v.truthy then
      match v with
      | .vStr s =>
        .ok { S with accessory_movements :=
          ((pySplitComma s).foldl (fun acc seg => setAdd acc (pyStrip seg))
            S.accessory_movements) }
      | _ => .error .attributeError
    else .ok S
  | none => .ok S

/-- The `Unnamed: 8` block: the whole truthy cell joins the workout
formats. -/
def addWorkoutFormat (S : RefSets) (row : Row) : RefSets :=
  match rowGet row "Unnamed: 8" with
  | some v =>
    if v.truthy then { S with workout_formats := setAdd S.workout_formats v } else S
  | none => S

/-- The `Unnamed: 7` block: the whole truthy cell joins the intensity
levels. -/
def addIntensityLevel (S : RefSets) (row : Row) : RefSets :=
  match rowGet row "Unnamed: 7" with
  | some v =>
    if v.truthy then { S with intensity_levels := setAdd S.intensity_levels v } else S
  | none => S

/-- The body of the extraction loop for one row, in source order:
`Unnamed: 3`, `Unnamed: 5`, `Unnamed: 9`, `Unnamed: 8`, `Unnamed: 7`. -/
def processRow (S : RefSets) (row : Row) : Except PyErr RefSets :=
  match addAccessoryFrom "Unnamed: 5" (addMainMovement S row) row with
  | .error e => .error e
  | .ok S2 =>
    match addAccessoryFrom "Unnamed: 9" S2 row with
    | .error e => .error e
    | .ok S3 => .ok (addIntensityLevel (addWorkoutFormat S3 row) row)

/-- The inner `for row in data` loop; an exception aborts it. -/
def processRows (S : RefSets) : List Row → Except PyErr RefSets
  | [] => .ok S
  | r :: rs =>
    match processRow S r with
    | .ok S2 => processRows S2 rs
    | .error e => .error e

/-- The outer `for sheet_name, data in sheets_data.items()` loop. -/
def processSheets (S : RefSets) : List (String × List Row) → Except PyErr RefSets
  | [] => .ok S
  | nr :: rest =>
    match processRows S nr.2 with
    | .ok S2 => processSheets S2 rest
    | .error e => .error e

/-- The whole reference-extraction pass over `sheets_data`. -/
def extractRefs (d : List (String × List Row)) : Except PyErr RefSets :=
  processSheets emptyRefSets d

/-- String comparison used by `sorted` on strings (code-point
lexicographic, as in Python). -/
def strLe (a b : String) : Bool :=
  decide (a ≤ b)

/-- Extract the string out of a string cell value. -/
def vStrOf : Value → Option String
  | .vStr s => some s
  | _ => none

/-- Python `sorted()` over a set of cell values, defined when every member
is a string; a non-string member is modelled as TypeError.  (Python would
also sort an all-numeric set; no behavior proved here depends on that
case.) -/
def pySortedVals (l : List Value) : Except PyErr (List String) :=
  if l.all fun v => (vStrOf v).isSome then
    .ok ((l.filterMap vStrOf).mergeSort strLe)
  else .error .typeError

/-- One markdown bullet line per item, in the given order. -/
def mdBullets (l : List String) : String :=
  String.join (l.map fun s => "- " ++ s ++ "\n")

/-- Writing `docs/movements.md`: the content that ends up in the file and
the exception raised mid-write, if any (the two header lines are already
written when `sorted(main_movements)` raises). -/
def writeMovementsMd (S : RefSets) : String × Option PyErr :=
  let hdr := "# Movements Reference\n\n" ++ "## Main Movements\n"
  match pySortedVals S.main_movements with
  | .error e => (hdr, some e)
  | .ok ms =>
    (hdr ++ mdBullets ms ++ "\n## Accessory/Finisher Movements\n"
       ++ mdBullets (S.accessory_movements.mergeSort strLe), none)

/-- Writing `docs/workout_formats.md`. -/
def writeWorkoutFormatsMd (S : RefSets) : String × Option PyErr :=
  let hdr := "# Workout Formats Reference\n\n"
  match pySortedVals S.workout_formats with
  | .error e => (hdr, some e)
  | .ok xs => (hdr ++ mdBullets xs, none)

/-- Writing `docs/intensity_levels.md`. -/
def writeIntensityLevelsMd (S : RefSets) : String × Option PyErr :=
  let hdr := "# Intensity Levels Reference\n\n"
  match pySortedVals S.intensity_levels with
  | .error e => (hdr, some e)
  | .ok xs => (hdr ++ mdBullets xs, none)

/-- The five column labels the extraction loop actually reads. -/
def scanLabels : List String :=
  ["Unnamed: 3", "Unnamed: 5", "Unnamed: 9", "Unnamed: 8", "Unnamed: 7"]

/-- Keep only the cells of a row whose label is among `ls` (used to state
which columns the extractor depends on). -/
def restrictRow (ls : List String) (r : Row) : Row :=
  r.filter fun kv => decide (kv.1 ∈ ls)

/-- Restrict every row of every sheet of a `sheets_data` value to the
labels in `ls`. -/
def restrictData (ls : List String) (d : List (String × List Row)) :
    List (String × List Row) :=
  d.map fun nr => (nr.1, nr.2.map (restrictRow ls))

/-- The truthy cell under `label`, if any, is a string (the condition
under which `.split(',')` cannot raise on that cell). -/
def cellOkB (row : Row) (label : String) : Bool :=
  match rowGet row label with
  | some v => !v.truthy || (vStrOf v).isSome
  | none => true

/-- Both accessory-movement cells of the row are safe for `.split(',')`. -/
def rowOkB (row : Row) : Bool :=
  cellOkB row "Unnamed: 5" && cellOkB row "Unnamed: 9"

/-- The invariant the extraction loop maintains on the four reference
sets: deduplication everywhere, stripped members in the accessory set,
and truthy members in the three whole-cell sets. -/
def RefInv (S : RefSets) : Prop :=
  S.main_movements.Nodup ∧ S.accessory_movements.Nodup ∧
  S.workout_formats.Nodup ∧ S.intensity_levels.Nodup ∧
  (∀ s ∈ S.accessory_movements, pyStrip s = s) ∧
  (∀ v ∈ S.main_movements, v.truthy = true) ∧
  (∀ v ∈ S.workout_formats, v.truthy = true) ∧
  (∀ v ∈ S.intensity_levels, v.truthy = true)

/-- The JSON entry one sheet contributes to the output document. -/
def sheetJson (s : RawSheet) : String × JVal :=
  (s.name,
   .jarr (s.rows.map fun r =>
     .jobj (r.map fun kv => (kv.1, dumpLeaf (normalizeCell kv.2)))))

/-- The files the script touches: the input workbook and the four output
files.  `workouts_data_json` holds the JSON document (its textual
rendering is a fixed deterministic function of it). -/
structure FS where
  workouts_xlsx : Option (List RawSheet)
  workouts_data_json : Option JVal
  movements_md : Option String
  workout_formats_md : Option String
  intensity_levels_md : Option String

/-- What one run leaves behind: the file system, the lines printed, and
the uncaught exception if the run died. -/
structure RunOutcome where
  fs : FS
  stdout : List String
  uncaught : Option PyErr

/-- The per-sheet row-count summary lines. -/
def summaryLines (d : List (String × List Row)) : List String :=
  d.map fun nr => nr.1 ++ ": " ++ toString nr.2.length ++ " rows"

/-- Embeds `parse_workouts_excel()` as a function of the file system. -/
def parse_workouts_excel (fs : FS) : RunOutcome :=
  match fs.workouts_xlsx with
  | none =>
    { fs := fs
      stdout := ["Error: workouts.xlsx not found!"]
      uncaught := none }
  | some wb =>
    let sheets_data := readSheets wb
    let fs1 := { fs with workouts_data_json := some (jsonDump (sheetsToObj sheets_data)) }
    let out := "Successfully parsed Excel file and saved to workouts_data.json"
      :: "\nSheet contents summary:" :: summaryLines sheets_data
    match extractRefs sheets_data with
    | .error e => { fs := fs1, stdout := out, uncaught := some e }
    | .ok S =>
      let m := writeMovementsMd S
      let fs2 := { fs1 with movements_md := some m.1 }
      match m.2 with
      | some e => { fs := fs2, stdout := out, uncaught := some e }
      | none =>
        let wf := writeWorkoutFormatsMd S
        let fs3 := { fs2 with workout_formats_md := some wf.1 }
        match wf.2 with
        | some e => { fs := fs3, stdout := out, uncaught := some e }
        | none =>
          let il := writeIntensityLevelsMd S
          let fs4 := { fs3 with intensity_levels_md := some il.1 }
          match il.2 with
          | some e => { fs := fs4, stdout := out, uncaught := some e }
          | none =>
            { fs := fs4
              stdout := out ++ ["\nExtracted data saved to markdown files in docs/"]
              uncaught := none }

/-! ### Lemmas about stripping and set insertion -/

/-- A list unchanged by `dropWhile` has a head the predicate rejects. -/
theorem dropWhile_cons_self {α : Type} (p : α → Bool) (c : α) (l : List α)
    (h : List.dropWhile p (c :: l) = c :: l) : p c = false := by
  by_contra hb
  have hc : p c = true := by simpa using hb
  rw [List.dropWhile_cons, if_pos hc] at h
  have hlen : (List.dropWhile p l).length ≤ l.length :=
    (List.dropWhile_sublist p).length_le
  rw [h] at hlen
  simp at hlen

/-- Stripping whitespace from both ends is idempotent. -/
theorem stripChars_idem (l : List Char) : stripChars (stripChars l) = stripChars l := by
  unfold stripChars
  have hmm : List.dropWhile isPySpace (List.dropWhile isPySpace l)
      = List.dropWhile isPySpace l := List.dropWhile_idempotent isPySpace l
  have hb : List.dropWhile isPySpace
      (List.rdropWhile isPySpace (List.dropWhile isPySpace l))
      = List.rdropWhile isPySpace (List.dropWhile isPySpace l) := by
    obtain ⟨t, ht⟩ := List.rdropWhile_prefix isPySpace (List.dropWhile isPySpace l)
    cases hbb : List.rdropWhile isPySpace (List.dropWhile isPySpace l) with
    | nil => rfl
    | cons c b2 =>
      have hmc : List.dropWhile isPySpace l = c :: (b2 ++ t) := by
        rw [← ht, hbb]; simp
    
      have hcf : isPySpace c = false := by
        apply dropWhile_cons_self isPySpace c (b2 ++ t)
        rw [← hmc]; exact hmm
      rw [List.dropWhile_cons, if_neg (by simp [hcf])]
  rw [hb, List.rdropWhile_idempotent]

/-- Python stripping is idempotent: a stripped string is trimmed. -/
theorem pyStrip_idem (s : String) : pyStrip (pyStrip s) = pyStrip s := by
  simp [pyStrip, stripChars_idem]

/-- The inserted element is a member after `set.add`. -/
theorem mem_setAdd_self {α : Type} [DecidableEq α] (l : List α) (x : α) :
    x ∈ setAdd l x := by
  unfold setAdd
  split
  · assumption
  · simp

/-- Old members survive `set.add`. -/
theorem mem_setAdd_of_mem {α : Type} [DecidableEq α] {l : List α} {a : α} (x : α)
    (h : a ∈ l) : a ∈ setAdd l x := by
  unfold setAdd
  split
  · exact h
  · simp [h]

/-- Every member after `set.add` is an old member or the new element. -/
theorem mem_setAdd_elim {α : Type} [DecidableEq α] {l : List α} {a x : α}
    (h : a ∈ setAdd l x) : a ∈ l ∨ a = x := by
  unfold setAdd at h
  split at h
  · exact .inl h
  · simpa using h

/-- `set.add` keeps the set deduplicated. -/
theorem setAdd_nodup {α : Type} [DecidableEq α] {l : List α} (x : α)
    (h : l.Nodup) : (setAdd l x).Nodup := by
  unfold setAdd
  split
  · exact h
  · next hx => simp [List.nodup_append, h, hx]

/-- Old members survive the fold that inserts the stripped comma
segments. -/
theorem mem_foldl_setAdd_of_mem {α : Type} [DecidableEq α] {β : Type} (f : β → α)
    (segs : List β) (acc : List α) {a : α} (h : a ∈ acc) :
    a ∈ segs.foldl (fun l s => setAdd l (f s)) acc := by
  induction segs generalizing acc with
  | nil => exact h
  | cons s rest ih => exact ih _ (mem_setAdd_of_mem _ h)

/-- Each inserted image is a member after the fold. -/
theorem mem_foldl_setAdd_self {α : Type} [DecidableEq α] {β : Type} (f : β → α)
    (segs : List β) (acc : List α) {s : β} (h : s ∈ segs) :
    f s ∈ segs.foldl (fun l x => setAdd l (f x)) acc := by
  induction segs generalizing acc with
  | nil => cases h
  | cons s0 rest ih =>
    rcases List.mem_cons.1 h with h0 | h0
    · subst h0
      exact mem_foldl_setAdd_of_mem f rest _ (mem_setAdd_self _ _)
    · exact ih _ h0

/-- Every member after the fold was a member before or is an inserted
image. -/
theorem mem_foldl_setAdd_elim {α : Type} [DecidableEq α] {β : Type} (f : β → α)
    (segs : List β) (acc : List α) {a : α}
    (h : a ∈ segs.foldl (fun l x => setAdd l (f x)) acc) :
    a ∈ acc ∨ ∃ s ∈ segs, a = f s := by
  induction segs generalizing acc with
  | nil => exact .inl h
  | cons s0 rest ih =>
    rw [List.foldl_cons] at h
    rcases ih _ h with h1 | ⟨s, hs, hfs⟩
    · rcases mem_setAdd_elim h1 with h2 | h2
      · exact .inl h2
      · exact .inr ⟨s0, by simp, h2⟩
    · exact .inr ⟨s, by simp [hs], hfs⟩

/-- The fold keeps the set deduplicated. -/
theorem foldl_setAdd_nodup {α : Type} [DecidableEq α] {β : Type} (f : β → α)
    (segs : List β) (acc : List α) (h : acc.Nodup) :
    (segs.foldl (fun l x => setAdd l (f x)) acc).Nodup := by
  induction segs generalizing acc with
  | nil => exact h
  | cons s rest ih => exact ih _ (setAdd_nodup _ h)

/-! ### Behavior of the per-column extraction steps -/

/-- Injectivity of `Except.ok`. -/
theorem ok_inj {α β : Type} {a b : α} (h : (Except.ok a : Except β α) = .ok b) :
    a = b := by
  injection h

/-- Case analysis of the `Unnamed: 3` block. -/
theorem addMain_eq (S : RefSets) (row : Row) :
    ((rowGet row "Unnamed: 3" = none ∨
        ∃ v, rowGet row "Unnamed: 3" = some v ∧ v.truthy = false) ∧
      addMainMovement S row = S) ∨
    (∃ v, rowGet row "Unnamed: 3" = some v ∧ v.truthy = true ∧
      addMainMovement S row = { S with main_movements := setAdd S.main_movements v }) := by
  cases hg : rowGet row "Unnamed: 3" with
  | none =>
    refine .inl ⟨.inl rfl, ?_⟩
    simp [addMainMovement, hg]
  | some v =>
    by_cases ht : v.truthy = true
    · refine .inr ⟨v, rfl, ht, ?_⟩
      simp [addMainMovement, hg, ht]
    · refine .inl ⟨.inr ⟨v, rfl, by simpa using ht⟩, ?_⟩
      simp [addMainMovement, hg, ht]

/-- Case analysis of the `Unnamed: 8` block. -/
theorem addFormat_eq (S : RefSets) (row : Row) :
    ((rowGet row "Unnamed: 8" = none ∨
        ∃ v, rowGet row "Unnamed: 8" = some v ∧ v.truthy = false) ∧
      addWorkoutFormat S row = S) ∨
    (∃ v, rowGet row "Unnamed: 8" = some v ∧ v.truthy = true ∧
      addWorkoutFormat S row = { S with workout_formats := setAdd S.workout_formats v }) := by
  cases hg : rowGet row "Unnamed: 8" with
  | none =>
    refine .inl ⟨.inl rfl, ?_⟩
    simp [addWorkoutFormat, hg]
  | some v =>
    by_cases ht : v.truthy = true
    · refine .inr ⟨v, rfl, ht, ?_⟩
      simp [addWorkoutFormat, hg, ht]
    · refine .inl ⟨.inr ⟨v, rfl, by simpa using ht⟩, ?_⟩
      simp [addWorkoutFormat, hg, ht]

/-- Case analysis of the `Unnamed: 7` block. -/
theorem addIntensity_eq (S : RefSets) (row : Row) :
    ((rowGet row "Unnamed: 7" = none ∨
        ∃ v, rowGet row "Unnamed: 7" = some v ∧ v.truthy = false) ∧
      addIntensityLevel S row = S) ∨
    (∃ v, rowGet row "Unnamed: 7" = some v ∧ v.truthy = true ∧
      addIntensityLevel S row = { S with intensity_levels := setAdd S.intensity_levels v }) := by
  cases hg : rowGet row "Unnamed: 7" with
  | none =>
    refine .inl ⟨.inl rfl, ?_⟩
    simp [addIntensityLevel, hg]
  | some v =>
    by_cases ht : v.truthy = true
    · refine .inr ⟨v, rfl, ht, ?_⟩
      simp [addIntensityLevel, hg, ht]
    · refine .inl ⟨.inr ⟨v, rfl, by simpa using ht⟩, ?_⟩
      simp [addIntensityLevel, hg, ht]

/-- Case analysis of an accessory block (`Unnamed: 5` or `Unnamed: 9`). -/
theorem addAcc_eq (label : String) (S : RefSets) (row : Row) :
    ((rowGet row label = none ∨ ∃ v, rowGet row label = some v ∧ v.truthy = false) ∧
      addAccessoryFrom label S row = .ok S) ∨
    (∃ s, rowGet row label = some (.vStr s) ∧ (Value.vStr s).truthy = true ∧
      addAccessoryFrom label S row = .ok { S with accessory_movements :=
        ((pySplitComma s).foldl (fun acc seg => setAdd acc (pyStrip seg))
          S.accessory_movements) }) ∨
    (∃ v, rowGet row label = some v ∧ v.truthy = true ∧ vStrOf v = none ∧
      addAccessoryFrom label S row = .error .attributeError) := by
  cases hg : rowGet row label with
  | none =>
    refine .inl ⟨.inl rfl, ?_⟩
    simp [addAccessoryFrom, hg]
  | some v =>
    by_cases ht : v.truthy = true
    · cases v with
      | vStr s =>
        refine .inr (.inl ⟨s, rfl, ht, ?_⟩)
        simp [addAccessoryFrom, hg, ht]
      | vNum n =>
        refine .inr (.inr ⟨_, rfl, ht, rfl, ?_⟩)
        simp [addAccessoryFrom, hg, ht]
      | vBool b =>
        refine .inr (.inr ⟨_, rfl, ht, rfl, ?_⟩)
        simp [addAccessoryFrom, hg, ht]
      | vDate d =>
        refine .inr (.inr ⟨_, rfl, ht, rfl, ?_⟩)
        simp [addAccessoryFrom, hg, ht]
      | vDatetime t =>
        refine .inr (.inr ⟨_, rfl, ht, rfl, ?_⟩)
        simp [addAccessoryFrom, hg, ht]
      | vNone =>
        refine .inr (.inr ⟨_, rfl, ht, rfl, ?_⟩)
        simp [addAccessoryFrom, hg, ht]
    · refine .inl ⟨.inr ⟨v, rfl, by simpa using ht⟩, ?_⟩
      simp [addAccessoryFrom, hg, ht]

/-- The `Unnamed: 3` block only grows the main set and leaves the other
fields alone. -/
theorem addMain_mono (S : RefSets) (row : Row) :
    (∀ a ∈ S.main_movements, a ∈ (addMainMovement S row).main_movements) ∧
    (addMainMovement S row).accessory_movements = S.accessory_movements ∧
    (addMainMovement S row).workout_formats = S.workout_formats ∧
    (addMainMovement S row).intensity_levels = S.intensity_levels := by
  rcases addMain_eq S row with ⟨-, h⟩ | ⟨v, -, -, h⟩ <;> rw [h]
  · exact ⟨fun a ha => ha, rfl, rfl, rfl⟩
  · exact ⟨fun a ha => mem_setAdd_of_mem _ ha, rfl, rfl, rfl⟩

/-- The `Unnamed: 8` block only grows the format set. -/
theorem addFormat_mono (S : RefSets) (row : Row) :
    (∀ a ∈ S.workout_formats, a ∈ (addWorkoutFormat S row).workout_formats) ∧
    (addWorkoutFormat S row).main_movements = S.main_movements ∧
    (addWorkoutFormat S row).accessory_movements = S.accessory_movements ∧
    (addWorkoutFormat S row).intensity_levels = S.intensity_levels := by
  rcases addFormat_eq S row with ⟨-, h⟩ | ⟨v, -, -, h⟩ <;> rw [h]
  · exact ⟨fun a ha => ha, rfl, rfl, rfl⟩
  · exact ⟨fun a ha => mem_setAdd_of_mem _ ha, rfl, rfl, rfl⟩

/-- The `Unnamed: 7` block only grows the intensity set. -/
theorem addIntensity_mono (S : RefSets) (row : Row) :
    (∀ a ∈ S.intensity_levels, a ∈ (addIntensityLevel S row).intensity_levels) ∧
    (addIntensityLevel S row).main_movements = S.main_movements ∧
    (addIntensityLevel S row).accessory_movements = S.accessory_movements ∧
    (addIntensityLevel S row).workout_formats = S.workout_formats := by
  rcases addIntensity_eq S row with ⟨-, h⟩ | ⟨v, -, -, h⟩ <;> rw [h]
  · exact ⟨fun a ha => ha, rfl, rfl, rfl⟩
  · exact ⟨fun a ha => mem_setAdd_of_mem _ ha, rfl, rfl, rfl⟩

/-- A successful accessory block only grows the accessory set. -/
theorem addAcc_ok_mono {label : String} {S : RefSets} {row : Row} {S2 : RefSets}
    (h : addAccessoryFrom label S row = .ok S2) :
    S2.main_movements = S.main_movements ∧
    (∀ a ∈ S.accessory_movements, a ∈ S2.accessory_movements) ∧
    S2.workout_formats = S.workout_formats ∧
    S2.intensity_levels = S.intensity_levels := by
  rcases addAcc_eq label S row with ⟨-, h0⟩ | ⟨s, -, -, h0⟩ | ⟨v, -, -, -, h0⟩ <;>
    rw [h0] at h
  · obtain rfl := ok_inj h
    exact ⟨rfl, fun a ha => ha, rfl, rfl⟩
  · obtain rfl := ok_inj h
    exact ⟨rfl, fun a ha => mem_foldl_setAdd_of_mem _ _ _ ha, rfl, rfl⟩
  · exact Except.noConfusion h

/-- What the `Unnamed: 3` block can put into the main set. -/
theorem addMain_inv (S : RefSets) (row : Row) :
    (S.main_movements.Nodup → (addMainMovement S row).main_movements.Nodup) ∧
    (∀ a ∈ (addMainMovement S row).main_movements,
      a ∈ S.main_movements ∨ a.truthy = true) := by
  rcases addMain_eq S row with ⟨-, h⟩ | ⟨v, -, ht, h⟩ <;> rw [h]
  · exact ⟨fun hn => hn, fun a ha => .inl ha⟩
  · refine ⟨fun hn => setAdd_nodup _ hn, fun a ha => ?_⟩
    rcases mem_setAdd_elim ha with h1 | h1
    · exact .inl h1
    · subst h1; exact .inr ht

/-- What the `Unnamed: 8` block can put into the format set. -/
theorem addFormat_inv (S : RefSets) (row : Row) :
    (S.workout_formats.Nodup → (addWorkoutFormat S row).workout_formats.Nodup) ∧
    (∀ a ∈ (addWorkoutFormat S row).workout_formats,
      a ∈ S.workout_formats ∨ a.truthy = true) := by
  rcases addFormat_eq S row with ⟨-, h⟩ | ⟨v, -, ht, h⟩ <;> rw [h]
  · exact ⟨fun hn => hn, fun a ha => .inl ha⟩
  · refine ⟨fun hn => setAdd_nodup _ hn, fun a ha => ?_⟩
    rcases mem_setAdd_elim ha with h1 | h1
    · exact .inl h1
    · subst h1; exact .inr ht

/-- What the `Unnamed: 7` block can put into the intensity set. -/
theorem addIntensity_inv (S : RefSets) (row : Row) :
    (S.intensity_levels.Nodup → (addIntensityLevel S row).intensity_levels.Nodup) ∧
    (∀ a ∈ (addIntensityLevel S row).intensity_levels,
      a ∈ S.intensity_levels ∨ a.truthy = true) := by
  rcases addIntensity_eq S row with ⟨-, h⟩ | ⟨v, -, ht, h⟩ <;> rw [h]
  · exact ⟨fun hn => hn, fun a ha => .inl ha⟩
  · refine ⟨fun hn => setAdd_nodup _ hn, fun a ha => ?_⟩
    rcases mem_setAdd_elim ha with h1 | h1
    · exact .inl h1
    · subst h1; exact .inr ht

/-- What a successful accessory block can put into the accessory set:
only stripped comma segments. -/
theorem addAcc_ok_inv {label : String} {S : RefSets} {row : Row} {S2 : RefSets}
    (h : addAccessoryFrom label S row = .ok S2) :
    (S.accessory_movements.Nodup → S2.accessory_movements.Nodup) ∧
    (∀ a ∈ S2.accessory_movements,
      a ∈ S.accessory_movements ∨ ∃ seg, a = pyStrip seg) := by
  rcases addAcc_eq label S row with ⟨-, h0⟩ | ⟨s, -, -, h0⟩ | ⟨v, -, -, -, h0⟩ <;>
    rw [h0] at h
  · obtain rfl := ok_inj h
    exact ⟨fun hn => hn, fun a ha => .inl ha⟩
  · obtain rfl := ok_inj h
    refine ⟨fun hn => foldl_setAdd_nodup _ _ _ hn, fun a ha => ?_⟩
    rcases mem_foldl_setAdd_elim _ _ _ ha with h1 | ⟨seg, -, hseg⟩
    · exact .inl h1
    · exact .inr ⟨seg, hseg⟩
  · exact Except.noConfusion h

/-- The truthy whole cell under `Unnamed: 3` is a member afterwards. -/
theorem addMain_adds {S : RefSets} {row : Row} {v : Value}
    (hg : rowGet row "Unnamed: 3" = some v) (ht : v.truthy = true) :
    v ∈ (addMainMovement S row).main_movements := by
  rcases addMain_eq S row with ⟨hr, h⟩ | ⟨w, hg2, -, h⟩
  · rcases hr with hnone | ⟨w, hsome, hfalse⟩
    · rw [hg] at hnone; exact Option.noConfusion hnone
    · rw [hg] at hsome
      obtain rfl : v = w := Option.some_inj.mp hsome
      rw [ht] at hfalse
      exact Bool.noConfusion hfalse
  · rw [hg] at hg2
    obtain rfl : v = w := Option.some_inj.mp hg2
    rw [h]
    exact mem_setAdd_self _ _

/-- The truthy whole cell under `Unnamed: 8` is a member afterwards. -/
theorem addFormat_adds {S : RefSets} {row : Row} {v : Value}
    (hg : rowGet row "Unnamed: 8" = some v) (ht : v.truthy = true) :
    v ∈ (addWorkoutFormat S row).workout_formats := by
  rcases addFormat_eq S row with ⟨hr, h⟩ | ⟨w, hg2, -, h⟩
  · rcases hr with hnone | ⟨w, hsome, hfalse⟩
    · rw [hg] at hnone; exact Option.noConfusion hnone
    · rw [hg] at hsome
      obtain rfl : v = w := Option.some_inj.mp hsome
      rw [ht] at hfalse
      exact Bool.noConfusion hfalse
  · rw [hg] at hg2
    obtain rfl : v = w := Option.some_inj.mp hg2
    rw [h]
    exact mem_setAdd_self _ _

/-- The truthy whole cell under `Unnamed: 7` is a member afterwards. -/
theorem addIntensity_adds {S : RefSets} {row : Row} {v : Value}
    (hg : rowGet row "Unnamed: 7" = some v) (ht : v.truthy = true) :
    v ∈ (addIntensityLevel S row).intensity_levels := by
  rcases addIntensity_eq S row with ⟨hr, h⟩ | ⟨w, hg2, -, h⟩
  · rcases hr with hnone | ⟨w, hsome, hfalse⟩
    · rw [hg] at hnone; exact Option.noConfusion hnone
    · rw [hg] at hsome
      obtain rfl : v = w := Option.some_inj.mp hsome
      rw [ht] at hfalse
      exact Bool.noConfusion hfalse
  · rw [hg] at hg2
    obtain rfl : v = w := Option.some_inj.mp hg2
    rw [h]
    exact mem_setAdd_self _ _

/-- Every stripped comma segment of a truthy accessory string cell is a
member after the accessory block succeeds. -/
theorem addAcc_adds {label : String} {S : RefSets} {row : Row} {s : String}
    {S2 : RefSets}
    (hg : rowGet row label = some (.vStr s)) (ht : (Value.vStr s).truthy = true)
    (h : addAccessoryFrom label S row = .ok S2) :
    ∀ seg ∈ pySplitComma s, pyStrip seg ∈ S2.accessory_movements := by
  rcases addAcc_eq label S row with ⟨hr, h0⟩ | ⟨s2, hg2, -, h0⟩ | ⟨v, hg2, -, hv, h0⟩
  · rcases hr with hnone | ⟨w, hsome, hfalse⟩
    · rw [hg] at hnone; exact Option.noConfusion hnone
    · rw [hg] at hsome
      obtain rfl : Value.vStr s = w := Option.some_inj.mp hsome
      rw [ht] at hfalse
      exact Bool.noConfusion hfalse
  · rw [hg] at hg2
    have hs : Value.vStr s = Value.vStr s2 := Option.some_inj.mp hg2
    obtain rfl : s = s2 := by injection hs
    rw [h0] at h
    obtain rfl := ok_inj h
    intro seg hseg
    exact mem_foldl_setAdd_self pyStrip _ _ hseg
  · rw [hg] at hg2
    obtain rfl : Value.vStr s = v := Option.some_inj.mp hg2
    simp [vStrOf] at hv

/-- The accessory block succeeds whenever a truthy cell under its label
is a string. -/
theorem addAcc_total {label : String} (S : RefSets) (row : Row)
    (hok : cellOkB row label = true) :
    ∃ S2, addAccessoryFrom label S row = .ok S2 := by
  rcases addAcc_eq label S row with ⟨-, h0⟩ | ⟨s, -, -, h0⟩ | ⟨v, hg, ht, hv, h0⟩
  · exact ⟨S, h0⟩
  · exact ⟨_, h0⟩
  · exfalso
    unfold cellOkB at hok
    rw [hg] at hok
    simp [ht, hv] at hok

/-- The extraction steps read nothing of the row beyond their own
label. -/
theorem addMain_congr {r1 r2 : Row} (S : RefSets)
    (h : rowGet r1 "Unnamed: 3" = rowGet r2 "Unnamed: 3") :
    addMainMovement S r1 = addMainMovement S r2 := by
  unfold addMainMovement; rw [h]

/-- Row congruence for the `Unnamed: 8` block. -/
theorem addFormat_congr {r1 r2 : Row} (S : RefSets)
    (h : rowGet r1 "Unnamed: 8" = rowGet r2 "Unnamed: 8") :
    addWorkoutFormat S r1 = addWorkoutFormat S r2 := by
  unfold addWorkoutFormat; rw [h]

/-- Row congruence for the `Unnamed: 7` block. -/
theorem addIntensity_congr {r1 r2 : Row} (S : RefSets)
    (h : rowGet r1 "Unnamed: 7" = rowGet r2 "Unnamed: 7") :
    addIntensityLevel S r1 = addIntensityLevel S r2 := by
  unfold addIntensityLevel; rw [h]

/-- Row congruence for an accessory block. -/
theorem addAcc_congr (label : String) {r1 r2 : Row} (S : RefSets)
    (h : rowGet r1 label = rowGet r2 label) :
    addAccessoryFrom label S r1 = addAccessoryFrom label S r2 := by
  unfold addAccessoryFrom; rw [h]

/-! ### The extraction loop row by row -/

/-- A successful row step decomposes into its five blocks. -/
theorem processRow_ok_elim {S : RefSets} {row : Row} {S' : RefSets}
    (h : processRow S row = .ok S') :
    ∃ S2 S3,
      addAccessoryFrom "Unnamed: 5" (addMainMovement S row) row = .ok S2 ∧
      addAccessoryFrom "Unnamed: 9" S2 row = .ok S3 ∧
      S' = addIntensityLevel (addWorkoutFormat S3 row) row := by
  unfold processRow at h
  split at h
  next e h5 => exact Except.noConfusion h
  next S2 h5 =>
    split at h
    next e h9 => exact Except.noConfusion h
    next S3 h9 => exact ⟨S2, S3, h5, h9, (ok_inj h).symm⟩

/-- Successful accessory blocks determine the whole row step. -/
theorem processRow_eq_ok {S : RefSets} {row : Row} {S2 S3 : RefSets}
    (h5 : addAccessoryFrom "Unnamed: 5" (addMainMovement S row) row = .ok S2)
    (h9 : addAccessoryFrom "Unnamed: 9" S2 row = .ok S3) :
    processRow S row = .ok (addIntensityLevel (addWorkoutFormat S3 row) row) := by
  unfold processRow
  simp only [h5, h9]

/-- A row whose accessory cells are split-safe is processed without an
exception. -/
theorem processRow_total (S : RefSets) (row : Row) (hok : rowOkB row = true) :
    ∃ S', processRow S row = .ok S' := by
  unfold rowOkB at hok
  rw [Bool.and_eq_true] at hok
  obtain ⟨S2, hS2⟩ := addAcc_total (addMainMovement S row) row hok.1
  obtain ⟨S3, hS3⟩ := addAcc_total S2 row hok.2
  exact ⟨_, processRow_eq_ok hS2 hS3⟩

/-- The sets only grow across one row step. -/
theorem processRow_ok_mono {S : RefSets} {row : Row} {S' : RefSets}
    (h : processRow S row = .ok S') :
    (∀ a ∈ S.main_movements, a ∈ S'.main_movements) ∧
    (∀ a ∈ S.accessory_movements, a ∈ S'.accessory_movements) ∧
    (∀ a ∈ S.workout_formats, a ∈ S'.workout_formats) ∧
    (∀ a ∈ S.intensity_levels, a ∈ S'.intensity_levels) := by
  obtain ⟨S2, S3, h5, h9, rfl⟩ := processRow_ok_elim h
  obtain ⟨m1, a1, f1, i1⟩ := addMain_mono S row
  obtain ⟨m5, a5, f5, i5⟩ := addAcc_ok_mono h5
  obtain ⟨m9, a9, f9, i9⟩ := addAcc_ok_mono h9
  obtain ⟨fF, mF, aF, iF⟩ := addFormat_mono S3 row
  obtain ⟨iI, mI, aI, fI⟩ := addIntensity_mono (addWorkoutFormat S3 row) row
  refine ⟨?_, ?_, ?_, ?_⟩
  · intro a ha
    rw [mI, mF, m9, m5]
    exact m1 a ha
  · intro a ha
    rw [aI, aF]
    refine a9 _ (a5 _ ?_)
    rw [a1]
    exact ha
  · intro a ha
    rw [fI]
    refine fF a ?_
    rw [f9, f5, f1]
    exact ha
  · intro a ha
    refine iI a ?_
    rw [iF, i9, i5, i1]
    exact ha

/-- One row step preserves the reference-set invariant. -/
theorem processRow_inv {S : RefSets} {row : Row} {S' : RefSets}
    (h : processRow S row = .ok S') (hS : RefInv S) : RefInv S' := by
  obtain ⟨S2, S3, h5, h9, rfl⟩ := processRow_ok_elim h
  obtain ⟨hm, ha, hf, hi, hstrip, hmt, hft, hit⟩ := hS
  obtain ⟨mdup1, melim1⟩ := addMain_inv S row
  obtain ⟨m1, a1, f1, i1⟩ := addMain_mono S row
  obtain ⟨m5, a5, f5, i5⟩ := addAcc_ok_mono h5
  obtain ⟨adup5, aelim5⟩ := addAcc_ok_inv h5
  obtain ⟨m9, a9, f9, i9⟩ := addAcc_ok_mono h9
  obtain ⟨adup9, aelim9⟩ := addAcc_ok_inv h9
  obtain ⟨fF, mF, aF, iF⟩ := addFormat_mono S3 row
  obtain ⟨fdup, felim⟩ := addFormat_inv S3 row
  obtain ⟨iI, mI, aI, fI⟩ := addIntensity_mono (addWorkoutFormat S3 row) row
  obtain ⟨idup, ielim⟩ := addIntensity_inv (addWorkoutFormat S3 row) row
  have hm2 : S2.main_movements = (addMainMovement S row).main_movements := m5
  have ha1 : (addMainMovement S row).accessory_movements = S.accessory_movements := a1
  refine ⟨?_, ?_, ?_, ?_, ?_, ?_, ?_, ?_⟩
  · rw [mI, mF, m9, hm2]
    exact mdup1 hm
  · rw [aI, aF]
    exact adup9 (adup5 (by rw [ha1]; exact ha))
  · rw [fI]
    refine fdup ?_
    rw [f9, f5, f1]
    exact hf
  · refine idup ?_
    rw [iF, i9, i5, i1]
    exact hi
  · intro s hs
    rw [aI, aF] at hs
    rcases aelim9 s hs with hs2 | ⟨seg, rfl⟩
    · rcases aelim5 s hs2 with hs1 | ⟨seg, rfl⟩
      · exact hstrip s (by rw [ha1] at hs1; exact hs1)
      · exact pyStrip_idem seg
    · exact pyStrip_idem seg
  · intro v hv
    rw [mI, mF, m9, hm2] at hv
    rcases melim1 v hv with hv0 | hv0
    · exact hmt v hv0
    · exact hv0
  · intro v hv
    rw [fI] at hv
    rcases felim v hv with hv0 | hv0
    · rw [f9, f5, f1] at hv0
      exact hft v hv0
    · exact hv0
  · intro v hv
    rcases ielim v hv with hv0 | hv0
    · rw [iF, i9, i5, i1] at hv0
      exact hit v hv0
    · exact hv0

/-- The row loop preserves the reference-set invariant. -/
theorem processRows_inv {rows : List Row} {S S' : RefSets}
    (h : processRows S rows = .ok S') (hS : RefInv S) : RefInv S' := by
  induction rows generalizing S with
  | nil =>
    simp only [processRows] at h
    obtain rfl := ok_inj h
    exact hS
  | cons r rs ih =>
    simp only [processRows] at h
    cases hr : processRow S r with
    | ok S2 =>
      rw [hr] at h
      exact ih h (processRow_inv hr hS)
    | error e =>
      rw [hr] at h
      exact Except.noConfusion h

/-- The sheet loop preserves the reference-set invariant. -/
theorem processSheets_inv {d : List (String × List Row)} {S S' : RefSets}
    (h : processSheets S d = .ok S') (hS : RefInv S) : RefInv S' := by
  induction d generalizing S with
  | nil =>
    simp only [processSheets] at h
    obtain rfl := ok_inj h
    exact hS
  | cons nr rest ih =>
    simp only [processSheets] at h
    cases hr : processRows S nr.2 with
    | ok S2 =>
      rw [hr] at h
      exact ih h (processRows_inv hr hS)
    | error e =>
      rw [hr] at h
      exact Except.noConfusion h

/-- The empty reference sets satisfy the invariant. -/
theorem emptyRefSets_inv : RefInv emptyRefSets := by
  refine ⟨?_, ?_, ?_, ?_, ?_, ?_, ?_, ?_⟩ <;> simp [emptyRefSets]

/-- Whatever the extraction returns satisfies the invariant. -/
theorem extractRefs_inv {d : List (String × List Row)} {S : RefSets}
    (h : extractRefs d = .ok S) : RefInv S :=
  processSheets_inv h emptyRefSets_inv

/-- The row loop runs to completion on split-safe rows. -/
theorem processRows_total {rows : List Row}
    (hok : ∀ r ∈ rows, rowOkB r = true) (S : RefSets) :
    ∃ S', processRows S rows = .ok S' := by
  induction rows generalizing S with
  | nil => exact ⟨S, rfl⟩
  | cons r rs ih =>
    obtain ⟨S2, h2⟩ := processRow_total S r (hok r (by simp))
    obtain ⟨S', h'⟩ := ih (fun r hr => hok r (by simp [hr])) S2
    refine ⟨S', ?_⟩
    simp only [processRows, h2]
    exact h'

/-- The sheet loop runs to completion on split-safe data. -/
theorem processSheets_total {d : List (String × List Row)}
    (hok : ∀ e ∈ d, ∀ r ∈ e.2, rowOkB r = true) (S : RefSets) :
    ∃ S', processSheets S d = .ok S' := by
  induction d generalizing S with
  | nil => exact ⟨S, rfl⟩
  | cons nr rest ih =>
    obtain ⟨S2, h2⟩ := processRows_total (hok nr (by simp)) S
    obtain ⟨S', h'⟩ := ih (fun e he r hr => hok e (by simp [he]) r hr) S2
    refine ⟨S', ?_⟩
    simp only [processSheets, h2]
    exact h'

/-- Extraction succeeds when every truthy accessory cell is a string. -/
theorem extractRefs_total {d : List (String × List Row)}
    (hok : ∀ e ∈ d, ∀ r ∈ e.2, rowOkB r = true) :
    ∃ S, extractRefs d = .ok S :=
  processSheets_total hok emptyRefSets

/-! ### The extraction only reads the five scanned labels -/

/-- Looking up a kept label commutes with filtering a row. -/
theorem find?_filter_key (ls : List String) (k : String) (hk : k ∈ ls) (r : Row) :
    (r.filter fun kv => decide (kv.1 ∈ ls)).find? (fun kv => kv.1 == k)
      = r.find? (fun kv => kv.1 == k) := by
  induction r with
  | nil => rfl
  | cons kv rest ih =>
    rw [List.filter_cons]
    by_cases h1 : kv.1 = k
    · have hmem : decide (kv.1 ∈ ls) = true := by rw [h1]; simp [hk]
      simp only [hmem, if_true]
      rw [List.find?_cons_of_pos _ (by simp [h1]),
        List.find?_cons_of_pos _ (by simp [h1])]
    · cases h2 : decide (kv.1 ∈ ls) with
      | true =>
        simp only [h2, if_true]
        rw [List.find?_cons_of_neg _ (by simp [h1]),
          List.find?_cons_of_neg _ (by simp [h1])]
        exact ih
      | false =>
        simp only [h2, Bool.false_eq_true, if_false]
        rw [List.find?_cons_of_neg _ (by simp [h1])]
        exact ih

/-- Restriction to a label set containing `k` does not change `row[k]`. -/
theorem rowGet_restrict (ls : List String) (k : String) (hk : k ∈ ls) (r : Row) :
    rowGet (restrictRow ls r) k = rowGet r k := by
  unfold rowGet restrictRow
  rw [find?_filter_key ls k hk]

/-- One row step only reads the five scanned labels. -/
theorem processRow_restrict (S : RefSets) (row : Row) :
    processRow S (restrictRow scanLabels row) = processRow S row := by
  have h3 := rowGet_restrict scanLabels "Unnamed: 3" (by decide) row
  have h5 := rowGet_restrict scanLabels "Unnamed: 5" (by decide) row
  have h9 := rowGet_restrict scanLabels "Unnamed: 9" (by decide) row
  have h8 := rowGet_restrict scanLabels "Unnamed: 8" (by decide) row
  have h7 := rowGet_restrict scanLabels "Unnamed: 7" (by decide) row
  have e3 : ∀ S0 : RefSets, addMainMovement S0 (restrictRow scanLabels row)
      = addMainMovement S0 row := fun S0 => addMain_congr S0 h3
  have e5 : ∀ S0 : RefSets, addAccessoryFrom "Unnamed: 5" S0 (restrictRow scanLabels row)
      = addAccessoryFrom "Unnamed: 5" S0 row := fun S0 => addAcc_congr _ S0 h5
  have e9 : ∀ S0 : RefSets, addAccessoryFrom "Unnamed: 9" S0 (restrictRow scanLabels row)
      = addAccessoryFrom "Unnamed: 9" S0 row := fun S0 => addAcc_congr _ S0 h9
  have e8 : ∀ S0 : RefSets, addWorkoutFormat S0 (restrictRow scanLabels row)
      = addWorkoutFormat S0 row := fun S0 => addFormat_congr S0 h8
  have e7 : ∀ S0 : RefSets, addIntensityLevel S0 (restrictRow scanLabels row)
      = addIntensityLevel S0 row := fun S0 => addIntensity_congr S0 h7
  unfold processRow
  simp only [e3, e5, e9, e8, e7]

/-- The row loop only reads the five scanned labels. -/
theorem processRows_restrict (S : RefSets) (rows : List Row) :
    processRows S (rows.map (restrictRow scanLabels)) = processRows S rows := by
  induction rows generalizing S with
  | nil => rfl
  | cons r rs ih =>
    simp only [List.map_cons, processRows, processRow_restrict]
    cases hr : processRow S r with
    | ok S2 => simp only [ih]
    | error e => rfl

/-- The sheet loop only reads the five scanned labels. -/
theorem processSheets_restrict (S : RefSets) (d : List (String × List Row)) :
    processSheets S (restrictData scanLabels d) = processSheets S d := by
  induction d generalizing S with
  | nil => rfl
  | cons nr rest ih =>
    simp only [restrictData, List.map_cons] at ih ⊢
    simp only [processSheets, processRows_restrict]
    cases hr : processRows S nr.2 with
    | ok S2 => simp only [ih]
    | error e => rfl

/-- Whole-extraction form of the restriction property. -/
theorem extractRefs_restrict (d : List (String × List Row)) :
    extractRefs (restrictData scanLabels d) = extractRefs d :=
  processSheets_restrict emptyRefSets d

/-! ### Serialization lemmas -/

/-- Dict serialization is an entrywise map. -/
theorem jsonDumpKVs_eq_map (kvs : List (String × PyObj)) :
    jsonDumpKVs kvs = kvs.map fun kv => (kv.1, jsonDump kv.2) := by
  induction kvs with
  | nil => rfl
  | cons kv rest ih => simp [jsonDumpKVs, ih]

/-- List serialization is an elementwise map. -/
theorem jsonDumpList_eq_map (xs : List PyObj) :
    jsonDumpList xs = xs.map jsonDump := by
  induction xs with
  | nil => rfl
  | cons x rest ih => simp [jsonDumpList, ih]

/-- Key lookup commutes with a value-only map over dict entries. -/
theorem find?_map_snd {α β : Type} (f : α → β) (l : List (String × α)) (k : String) :
    (l.map fun kv => (kv.1, f kv.2)).find? (fun kv => kv.1 == k)
      = (l.find? fun kv => kv.1 == k).map fun kv => (kv.1, f kv.2) := by
  induction l with
  | nil => rfl
  | cons kv rest ih =>
    by_cases h : kv.1 = k
    · rw [List.map_cons, List.find?_cons_of_pos _ (by simp [h]),
        List.find?_cons_of_pos _ (by simp [h])]
      rfl
    · rw [List.map_cons, List.find?_cons_of_neg _ (by simp [h]),
        List.find?_cons_of_neg _ (by simp [h])]
      exact ih

/-- Path lookup at the empty path returns the JSON value itself. -/
theorem jval_getPath_nil (j : JVal) : j.getPath [] = some j := by
  cases j <;> rfl

/-- Serialization maps the leaf at any path to its scalar encoding. -/
theorem jsonDump_getPath (p : List PathStep) :
    ∀ (o : PyObj) (v : Value), o.getPath p = some (.leaf v) →
      (jsonDump o).getPath p = some (dumpLeaf v) := by
  induction p with
  | nil =>
    intro o v h
    simp only [PyObj.getPath] at h
    obtain rfl := Option.some_inj.mp h
    rw [jval_getPath_nil]
    rfl
  | cons e rest ih =>
    intro o v h
    cases o with
    | leaf w =>
      cases e <;> exact Option.noConfusion h
    | arr xs =>
      cases e with
      | aidx i =>
        simp only [PyObj.getPath] at h
        cases hx : xs[i]? with
        | none => rw [hx] at h; exact Option.noConfusion h
        | some x =>
          rw [hx] at h
          have hj : (jsonDumpList xs)[i]? = some (jsonDump x) := by
            rw [jsonDumpList_eq_map, List.getElem?_map, hx]
            rfl
          show (JVal.jarr (jsonDumpList xs)).getPath (.aidx i :: rest) = _
          simp only [JVal.getPath, hj]
          exact ih x v h
      | okey k => exact Option.noConfusion h
    | dict kvs =>
      cases e with
      | aidx i => exact Option.noConfusion h
      | okey k =>
        simp only [PyObj.getPath] at h
        cases hx : kvs.find? (fun kv => kv.1 == k) with
        | none => rw [hx] at h; exact Option.noConfusion h
        | some kv =>
          rw [hx] at h
          have hj : (jsonDumpKVs kvs).find? (fun kv => kv.1 == k)
              = some (kv.1, jsonDump kv.2) := by
            rw [jsonDumpKVs_eq_map, find?_map_snd, hx]
            rfl
          show (JVal.jobj (jsonDumpKVs kvs)).getPath (.okey k :: rest) = _
          simp only [JVal.getPath, hj]
          exact ih kv.2 v h

/-! ### The sheets dictionary on workbooks with distinct sheet names -/

/-- Inserting a fresh key appends the entry. -/
theorem dictInsert_of_fresh {α : Type} (d : List (String × α)) (k : String) (v : α)
    (h : ∀ kv ∈ d, kv.1 ≠ k) : dictInsert d k v = d ++ [(k, v)] := by
  unfold dictInsert
  have hany : d.any (fun kv => kv.1 == k) = false := by
    rw [List.any_eq_false]
    intro kv hkv
    simp [h kv hkv]
  rw [hany]
  simp

/-- The sheet-reading fold, generalized over the dict accumulated so
far. -/
theorem readSheets_aux (wb : List RawSheet) :
    ∀ acc : List (String × List Row), (wb.map RawSheet.name).Nodup →
      (∀ s ∈ wb, ∀ kv ∈ acc, kv.1 ≠ s.name) →
      wb.foldl (fun d s => dictInsert d s.name (s.rows.map normalizeRow)) acc
        = acc ++ wb.map fun s => (s.name, s.rows.map normalizeRow) := by
  induction wb with
  | nil => intro acc _ _; simp
  | cons s rest ih =>
    intro acc hnd hdisj
    rw [List.foldl_cons, dictInsert_of_fresh _ _ _ (hdisj s (by simp))]
    rw [List.map_cons] at hnd
    rw [ih _ (List.Nodup.of_cons hnd) ?_]
    · simp
    · intro s2 hs2 kv hkv
      rcases List.mem_append.mp hkv with hkv | hkv
      · exact hdisj s2 (by simp [hs2]) kv hkv
      · have hne : s.name ≠ s2.name := by
          have := (List.nodup_cons.mp hnd).1
          intro hEq
          exact this (hEq ▸ List.mem_map_of_mem RawSheet.name hs2)
        simp only [List.mem_singleton] at hkv
        subst hkv
        exact hne
      
/-- With distinct sheet names, `sheets_data` is the workbook in order. -/
theorem readSheets_of_nodup {wb : List RawSheet}
    (hnd : (wb.map RawSheet.name).Nodup) :
    readSheets wb = wb.map fun s => (s.name, s.rows.map normalizeRow) := by
  unfold readSheets
  rw [readSheets_aux wb [] hnd (by intro s _ kv hkv; cases hkv)]
  simp

/-! ### Normal forms of one run -/

/-- A run with no input file: error line, nothing touched. -/
theorem parse_missing {fs : FS} (hfs : fs.workouts_xlsx = none) :
    parse_workouts_excel fs =
      { fs := fs
        stdout := ["Error: workouts.xlsx not found!"]
        uncaught := none } := by
  unfold parse_workouts_excel
  simp only [hfs]

/-- A run whose extraction step raises: the JSON is already on disk, the
markdown files are untouched. -/
theorem parse_extract_error {fs : FS} {wb : List RawSheet} {e : PyErr}
    (hfs : fs.workouts_xlsx = some wb)
    (hE : extractRefs (readSheets wb) = .error e) :
    parse_workouts_excel fs =
      { fs := { fs with workouts_data_json := some (jsonDump (sheetsToObj (readSheets wb))) }
        stdout := "Successfully parsed Excel file and saved to workouts_data.json"
          :: "\nSheet contents summary:" :: summaryLines (readSheets wb)
        uncaught := some e } := by
  unfold parse_workouts_excel
  simp only [hfs, hE]

/-- A run where `sorted(main_movements)` raises: the movements file holds
only its two headers, the remaining markdown files are untouched. -/
theorem parse_msort_error {fs : FS} {wb : List RawSheet} {S : RefSets} {e : PyErr}
    (hfs : fs.workouts_xlsx = some wb)
    (hE : extractRefs (readSheets wb) = .ok S)
    (hM : pySortedVals S.main_movements = .error e) :
    parse_workouts_excel fs =
      { fs := { fs with
          workouts_data_json := some (jsonDump (sheetsToObj (readSheets wb)))
          movements_md := some ("# Movements Reference\n\n" ++ "## Main Movements\n") }
        stdout := "Successfully parsed Excel file and saved to workouts_data.json"
          :: "\nSheet contents summary:" :: summaryLines (readSheets wb)
        uncaught := some e } := by
  unfold parse_workouts_excel writeMovementsMd
  simp only [hfs, hE, hM]

/-- A run where `sorted(workout_formats)` raises. -/
theorem parse_fsort_error {fs : FS} {wb : List RawSheet} {S : RefSets}
    {M : List String} {e : PyErr}
    (hfs : fs.workouts_xlsx = some wb)
    (hE : extractRefs (readSheets wb) = .ok S)
    (hM : pySortedVals S.main_movements = .ok M)
    (hF : pySortedVals S.workout_formats = .error e) :
    parse_workouts_excel fs =
      { fs := { fs with
          workouts_data_json := some (jsonDump (sheetsToObj (readSheets wb)))
          movements_md := some ("# Movements Reference\n\n" ++ "## Main Movements\n"
            ++ mdBullets M ++ "\n## Accessory/Finisher Movements\n"
            ++ mdBullets (S.accessory_movements.mergeSort strLe))
          workout_formats_md := some "# Workout Formats Reference\n\n" }
        stdout := "Successfully parsed Excel file and saved to workouts_data.json"
          :: "\nSheet contents summary:" :: summaryLines (readSheets wb)
        uncaught := some e } := by
  unfold parse_workouts_excel writeMovementsMd writeWorkoutFormatsMd
  simp only [hfs, hE, hM, hF]

/-- A run where `sorted(intensity_levels)` raises. -/
theorem parse_isort_error {fs : FS} {wb : List RawSheet} {S : RefSets}
    {M F : List String} {e : PyErr}
    (hfs : fs.workouts_xlsx = some wb)
    (hE : extractRefs (readSheets wb) = .ok S)
    (hM : pySortedVals S.main_movements = .ok M)
    (hF : pySortedVals S.workout_formats = .ok F)
    (hI : pySortedVals S.intensity_levels = .error e) :
    parse_workouts_excel fs =
      { fs := { fs with
          workouts_data_json := some (jsonDump (sheetsToObj (readSheets wb)))
          movements_md := some ("# Movements Reference\n\n" ++ "## Main Movements\n"
            ++ mdBullets M ++ "\n## Accessory/Finisher Movements\n"
            ++ mdBullets (S.accessory_movements.mergeSort strLe))
          workout_formats_md := some ("# Workout Formats Reference\n\n" ++ mdBullets F)
          intensity_levels_md := some "# Intensity Levels Reference\n\n" }
        stdout := "Successfully parsed Excel file and saved to workouts_data.json"
          :: "\nSheet contents summary:" :: summaryLines (readSheets wb)
        uncaught := some e } := by
  unfold parse_workouts_excel writeMovementsMd writeWorkoutFormatsMd writeIntensityLevelsMd
  simp only [hfs, hE, hM, hF, hI]

/-- A fully successful run. -/
theorem parse_ok {fs : FS} {wb : List RawSheet} {S : RefSets}
    {M F I : List String}
    (hfs : fs.workouts_xlsx = some wb)
    (hE : extractRefs (readSheets wb) = .ok S)
    (hM : pySortedVals S.main_movements = .ok M)
    (hF : pySortedVals S.workout_formats = .ok F)
    (hI : pySortedVals S.intensity_levels = .ok I) :
    parse_workouts_excel fs =
      { fs := { fs with
          workouts_data_json := some (jsonDump (sheetsToObj (readSheets wb)))
          movements_md := some ("# Movements Reference\n\n" ++ "## Main Movements\n"
            ++ mdBullets M ++ "\n## Accessory/Finisher Movements\n"
            ++ mdBullets (S.accessory_movements.mergeSort strLe))
          workout_formats_md := some ("# Workout Formats Reference\n\n" ++ mdBullets F)
          intensity_levels_md := some ("# Intensity Levels Reference\n\n" ++ mdBullets I) }
        stdout := ("Successfully parsed Excel file and saved to workouts_data.json"
          :: "\nSheet contents summary:" :: summaryLines (readSheets wb))
          ++ ["\nExtracted data saved to markdown files in docs/"]
        uncaught := none } := by
  unfold parse_workouts_excel writeMovementsMd writeWorkoutFormatsMd writeIntensityLevelsMd
  simp only [hfs, hE, hM, hF, hI]

theorem jsonDump_sheetsToObj (d : List (String × List Row)) :
    jsonDump (sheetsToObj d)
      = .jobj (d.map fun nr =>
          (nr.1, .jarr (nr.2.map fun r => .jobj (r.map fun kv => (kv.1, dumpLeaf kv.2))))) := by
  unfold sheetsToObj
  simp only [jsonDump, jsonDumpKVs_eq_map, List.map_map]
  congr 1
  apply List.map_congr_left
  intro nr _
  simp only [Function.comp_apply]
  congr 1
  simp only [jsonDump, jsonDumpList_eq_map, List.map_map]
  congr 1
  apply List.map_congr_left
  intro r _
  simp only [Function.comp_apply, rowToObj, jsonDump, jsonDumpKVs_eq_map, List.map_map]
  rfl

theorem parse_json_of_nodup {fs : FS} {wb : List RawSheet}
    (hfs : fs.workouts_xlsx = some wb) (hnd : (wb.map RawSheet.name).Nodup) :
    (parse_workouts_excel fs).fs.workouts_data_json = some (.jobj (wb.map sheetJson)) := by
  have hpj : (parse_workouts_excel fs).fs.workouts_data_json
      = some (jsonDump (sheetsToObj (readSheets wb))) := by
    cases hE : extractRefs (readSheets wb) with
    | error e => rw [parse_extract_error hfs hE]
    | ok S =>
      cases hM : pySortedVals S.main_movements with
      | error e => rw [parse_msort_error hfs hE hM]
      | ok M =>
        cases hF : pySortedVals S.workout_formats with
        | error e => rw [parse_fsort_error hfs hE hM hF]
        | ok F =>
          cases hI : pySortedVals S.intensity_levels with
          | error e => rw [parse_isort_error hfs hE hM hF hI]
          | ok I => rw [parse_ok hfs hE hM hF hI]
  rw [hpj, readSheets_of_nodup hnd, jsonDump_sheetsToObj]
  simp only [List.map_map]
  congr 2
  apply List.map_congr_left
  intro s _
  simp only [Function.comp_apply, sheetJson]
  congr 2
  rw [List.map_map]
  apply List.map_congr_left
  intro r _
  simp only [Function.comp_apply, normalizeRow, List.map_map]
  rfl

/-! ### The claims -/

/-- C1: if the input file `workouts.xlsx` does not exist, the program
prints a diagnostic error message containing the file name and returns
without further processing: the file system is left exactly as it was
(no output file written or partially written) and no exception
escapes. -/
theorem c1_missing_input (fs : FS) (h : fs.workouts_xlsx = none) :
    (parse_workouts_excel fs).fs = fs ∧
    (parse_workouts_excel fs).uncaught = none ∧
    (parse_workouts_excel fs).stdout = ["Error: workouts.xlsx not found!"] ∧
    ∃ pre post, "Error: workouts.xlsx not found!" = pre ++ "workouts.xlsx" ++ post := by
  rw [parse_missing h]
  exact ⟨rfl, rfl, rfl, "Error: ", " not found!", rfl⟩

/-- Witness for C1 at a concrete file system holding stale outputs. -/
theorem c1_missing_input_witness :
    (⟨none, some (JVal.jstr "old"), some "m", some "w", some "i"⟩ : FS).workouts_xlsx
        = none ∧
    ((parse_workouts_excel ⟨none, some (JVal.jstr "old"), some "m", some "w", some "i"⟩).fs
        = ⟨none, some (JVal.jstr "old"), some "m", some "w", some "i"⟩ ∧
      (parse_workouts_excel
          ⟨none, some (JVal.jstr "old"), some "m", some "w", some "i"⟩).uncaught = none ∧
      (parse_workouts_excel
          ⟨none, some (JVal.jstr "old"), some "m", some "w", some "i"⟩).stdout
        = ["Error: workouts.xlsx not found!"] ∧
      ∃ pre post, "Error: workouts.xlsx not found!" = pre ++ "workouts.xlsx" ++ post) :=
  ⟨rfl, c1_missing_input _ rfl⟩

/-- C2: for every workbook with distinct sheet names, the JSON document
has exactly one top-level key per sheet, the keys are the sheet names in
order, and each key maps to a list whose length is that sheet's row
count. -/
theorem c2_json_shape (fs : FS) (wb : List RawSheet)
    (hfs : fs.workouts_xlsx = some wb) (hnd : (wb.map RawSheet.name).Nodup) :
    ∃ kvs : List (String × JVal),
      (parse_workouts_excel fs).fs.workouts_data_json = some (.jobj kvs) ∧
      kvs.map Prod.fst = wb.map RawSheet.name ∧
      kvs.length = wb.length ∧
      ∀ (i : Nat) (s : RawSheet), wb[i]? = some s →
        ∃ rowsJ : List JVal, kvs[i]? = some (s.name, .jarr rowsJ) ∧
          rowsJ.length = s.rows.length := by
  refine ⟨wb.map sheetJson, parse_json_of_nodup hfs hnd, ?_, by simp, ?_⟩
  · rw [List.map_map]
    apply List.map_congr_left
    intro s _
    rfl
  · intro i s hi
    refine ⟨s.rows.map fun r =>
      .jobj (r.map fun kv => (kv.1, dumpLeaf (normalizeCell kv.2))), ?_, by simp⟩
    rw [List.getElem?_map, hi]
    rfl

/-- Witness for C2 on a two-sheet workbook. -/
theorem c2_json_shape_witness :
    (⟨some [⟨"A", [[("x", .cell (.vNum 1))], []]⟩, ⟨"B", []⟩],
        none, none, none, none⟩ : FS).workouts_xlsx
      = some [⟨"A", [[("x", .cell (.vNum 1))], []]⟩, ⟨"B", []⟩] ∧
    (([⟨"A", [[("x", .cell (.vNum 1))], []]⟩, ⟨"B", []⟩] :
        List RawSheet).map RawSheet.name).Nodup ∧
    ∃ kvs : List (String × JVal),
      (parse_workouts_excel ⟨some [⟨"A", [[("x", .cell (.vNum 1))], []]⟩, ⟨"B", []⟩],
        none, none, none, none⟩).fs.workouts_data_json = some (.jobj kvs) ∧
      kvs.map Prod.fst
        = ([⟨"A", [[("x", .cell (.vNum 1))], []]⟩, ⟨"B", []⟩] :
            List RawSheet).map RawSheet.name ∧
      kvs.length = ([⟨"A", [[("x", .cell (.vNum 1))], []]⟩, ⟨"B", []⟩] :
            List RawSheet).length ∧
      ∀ (i : Nat) (s : RawSheet),
        ([⟨"A", [[("x", .cell (.vNum 1))], []]⟩, ⟨"B", []⟩] :
            List RawSheet)[i]? = some s →
        ∃ rowsJ : List JVal, kvs[i]? = some (s.name, .jarr rowsJ) ∧
          rowsJ.length = s.rows.length :=
  ⟨rfl, by decide, c2_json_shape _ _ rfl (by decide)⟩

/-- C6: a date or datetime cell at any nesting depth of the serialized
structure comes out as its ISO-8601 string, and every other scalar value
passes through to JSON unchanged. -/
theorem c6_dates_iso (o : PyObj) (p : List PathStep) (v : Value)
    (h : o.getPath p = some (.leaf v)) :
    (jsonDump o).getPath p = some (dumpLeaf v) ∧
    (∀ d : PyDate, v = .vDate d → dumpLeaf v = .jstr d.isoformat) ∧
    (∀ t : PyDatetime, v = .vDatetime t → dumpLeaf v = .jstr t.isoformat) ∧
    (∀ s : String, v = .vStr s → dumpLeaf v = .jstr s) ∧
    (∀ n : Int, v = .vNum n → dumpLeaf v = .jnum n) ∧
    (∀ b : Bool, v = .vBool b → dumpLeaf v = .jbool b) ∧
    (v = .vNone → dumpLeaf v = .jnull) := by
  refine ⟨jsonDump_getPath p o v h, ?_, ?_, ?_, ?_, ?_, ?_⟩
  · rintro d rfl; rfl
  · rintro t rfl; rfl
  · rintro s rfl; rfl
  · rintro n rfl; rfl
  · rintro b rfl; rfl
  · rintro rfl; rfl

/-- Witness for C6 at a date nested inside a dict inside a list. -/
theorem c6_dates_iso_witness :
    (PyObj.dict [("a", .arr [.leaf (.vDate ⟨2024, 1, 5⟩)])]).getPath
        [.okey "a", .aidx 0] = some (.leaf (.vDate ⟨2024, 1, 5⟩)) ∧
    ((jsonDump (PyObj.dict [("a", .arr [.leaf (.vDate ⟨2024, 1, 5⟩)])])).getPath
        [.okey "a", .aidx 0] = some (dumpLeaf (.vDate ⟨2024, 1, 5⟩)) ∧
      (∀ d : PyDate, Value.vDate ⟨2024, 1, 5⟩ = .vDate d →
        dumpLeaf (.vDate ⟨2024, 1, 5⟩) = .jstr d.isoformat) ∧
      (∀ t : PyDatetime, Value.vDate ⟨2024, 1, 5⟩ = .vDatetime t →
        dumpLeaf (.vDate ⟨2024, 1, 5⟩) = .jstr t.isoformat) ∧
      (∀ s : String, Value.vDate ⟨2024, 1, 5⟩ = .vStr s →
        dumpLeaf (.vDate ⟨2024, 1, 5⟩) = .jstr s) ∧
      (∀ n : Int, Value.vDate ⟨2024, 1, 5⟩ = .vNum n →
        dumpLeaf (.vDate ⟨2024, 1, 5⟩) = .jnum n) ∧
      (∀ b : Bool, Value.vDate ⟨2024, 1, 5⟩ = .vBool b →
        dumpLeaf (.vDate ⟨2024, 1, 5⟩) = .jbool b) ∧
      (Value.vDate ⟨2024, 1, 5⟩ = .vNone →
        dumpLeaf (.vDate ⟨2024, 1, 5⟩) = .jnull)) :=
  ⟨rfl, c6_dates_iso _ _ _ rfl⟩

/-- C7: an empty or NaN cell of the source workbook serializes as JSON
null at its position in the output document. -/
theorem c7_nan_null (fs : FS) (wb : List RawSheet) (si ri : Nat)
    (sheet : RawSheet) (rawRow : RawRow) (k : String)
    (hfs : fs.workouts_xlsx = some wb) (hnd : (wb.map RawSheet.name).Nodup)
    (hs : wb[si]? = some sheet) (hr : sheet.rows[ri]? = some rawRow)
    (hc : rawRow.find? (fun kv => kv.1 == k) = some (k, .nan)) :
    ∃ (kvs : List (String × JVal)) (rowsJ : List JVal)
      (rowKVs : List (String × JVal)),
      (parse_workouts_excel fs).fs.workouts_data_json = some (.jobj kvs) ∧
      kvs[si]? = some (sheet.name, .jarr rowsJ) ∧
      rowsJ[ri]? = some (.jobj rowKVs) ∧
      rowKVs.find? (fun kv => kv.1 == k) = some (k, .jnull) := by
  refine ⟨wb.map sheetJson,
    sheet.rows.map fun r => .jobj (r.map fun kv => (kv.1, dumpLeaf (normalizeCell kv.2))),
    rawRow.map fun kv => (kv.1, dumpLeaf (normalizeCell kv.2)),
    parse_json_of_nodup hfs hnd, ?_, ?_, ?_⟩
  · rw [List.getElem?_map, hs]
    rfl
  · rw [List.getElem?_map, hr]
    rfl
  · have h2 := find?_map_snd (fun rv => dumpLeaf (normalizeCell rv)) rawRow k
    rw [hc] at h2
    exact h2

/-- Witness for C7 on a one-sheet workbook with a NaN cell. -/
theorem c7_nan_null_witness :
    (⟨some [⟨"S", [[("c", RawValue.nan)]]⟩], none, none, none, none⟩ : FS).workouts_xlsx
        = some [⟨"S", [[("c", RawValue.nan)]]⟩] ∧
    (([⟨"S", [[("c", RawValue.nan)]]⟩] : List RawSheet).map RawSheet.name).Nodup ∧
    ([⟨"S", [[("c", RawValue.nan)]]⟩] : List RawSheet)[0]?
        = some ⟨"S", [[("c", RawValue.nan)]]⟩ ∧
    ((⟨"S", [[("c", RawValue.nan)]]⟩ : RawSheet).rows)[0]? = some [("c", RawValue.nan)] ∧
    ([("c", RawValue.nan)] : RawRow).find? (fun kv => kv.1 == "c")
        = some ("c", .nan) ∧
    ∃ (kvs : List (String × JVal)) (rowsJ : List JVal)
      (rowKVs : List (String × JVal)),
      (parse_workouts_excel
          ⟨some [⟨"S", [[("c", RawValue.nan)]]⟩], none, none, none, none⟩).fs.workouts_data_json
        = some (.jobj kvs) ∧
      kvs[0]? = some ((⟨"S", [[("c", RawValue.nan)]]⟩ : RawSheet).name, .jarr rowsJ) ∧
      rowsJ[0]? = some (.jobj rowKVs) ∧
      rowKVs.find? (fun kv => kv.1 == "c") = some ("c", .jnull) :=
  ⟨rfl, by decide, rfl, rfl, rfl, c7_nan_null _ _ 0 0 _ _ "c" rfl (by decide) rfl rfl rfl⟩

/-- C3 (counterexample): a cell value with surrounding whitespace under
`Unnamed: 3` is stored in the main-movement set exactly as it is, not
trimmed. -/
theorem c3_counterexample :
    ∃ S : RefSets,
      extractRefs [("S1", [[("Unnamed: 3", Value.vStr " Squat ")]])] = .ok S ∧
      Value.vStr " Squat " ∈ S.main_movements ∧
      pyStrip " Squat " ≠ " Squat " := by
  refine ⟨⟨[.vStr " Squat "], [], [], []⟩, rfl, by decide, by decide⟩

/-- C3 (amended): every value inserted into the accessory set is trimmed
of surrounding whitespace, and each of the four reference sets contains
no duplicates (the main-movement, format and intensity sets store cell
values as-is). -/
theorem c3_amended (d : List (String × List Row)) (S : RefSets)
    (h : extractRefs d = .ok S) :
    (∀ s ∈ S.accessory_movements, pyStrip s = s) ∧
    S.main_movements.Nodup ∧ S.accessory_movements.Nodup ∧
    S.workout_formats.Nodup ∧ S.intensity_levels.Nodup := by
  obtain ⟨hm, ha, hf, hi, hstrip, -, -, -⟩ := extractRefs_inv h
  exact ⟨hstrip, hm, ha, hf, hi⟩

/-- Witness for the amended C3 on a workbook with whitespace around the
accessory cell segments. -/
theorem c3_amended_witness :
    extractRefs [("S1", [[("Unnamed: 5", Value.vStr " a , b ")]])]
        = .ok ⟨[], ["a", "b"], [], []⟩ ∧
    ((∀ s ∈ (⟨[], ["a", "b"], [], []⟩ : RefSets).accessory_movements, pyStrip s = s) ∧
      (⟨[], ["a", "b"], [], []⟩ : RefSets).main_movements.Nodup ∧
      (⟨[], ["a", "b"], [], []⟩ : RefSets).accessory_movements.Nodup ∧
      (⟨[], ["a", "b"], [], []⟩ : RefSets).workout_formats.Nodup ∧
      (⟨[], ["a", "b"], [], []⟩ : RefSets).intensity_levels.Nodup) :=
  ⟨rfl, c3_amended [("S1", [[("Unnamed: 5", Value.vStr " a , b ")]])] _ rfl⟩

/-- C4 (counterexample): no four column labels determine the extraction
result, because each of the five labels read by the loop can change it;
moreover the collected values are not all non-empty, since a trailing
comma in an accessory cell inserts the empty string. -/
theorem c4_counterexample :
    (¬ ∃ ls : List String, ls.length = 4 ∧
        ∀ d, extractRefs (restrictData ls d) = extractRefs d) ∧
    (∃ S : RefSets,
      extractRefs [("S", [[("Unnamed: 5", Value.vStr "a,")]])] = .ok S ∧
      "" ∈ S.accessory_movements) := by
  constructor
  · rintro ⟨ls, hlen, hall⟩
    have m3 : "Unnamed: 3" ∈ ls := by
      by_contra hn
      have h := hall [("S", [[("Unnamed: 3", Value.vStr "A")]])]
      have hres : restrictData ls [("S", [[("Unnamed: 3", Value.vStr "A")]])]
          = [("S", [([] : Row)])] := by
        simp [restrictData, restrictRow, hn]
      rw [hres] at h
      have h1 : extractRefs [("S", [([] : Row)])] = .ok emptyRefSets := rfl
      have h2 : extractRefs [("S", [[("Unnamed: 3", Value.vStr "A")]])]
          = .ok ⟨[.vStr "A"], [], [], []⟩ := rfl
      rw [h1, h2] at h
      have h3 := ok_inj h
      simp [emptyRefSets] at h3
    have m5 : "Unnamed: 5" ∈ ls := by
      by_contra hn
      have h := hall [("S", [[("Unnamed: 5", Value.vStr "A")]])]
      have hres : restrictData ls [("S", [[("Unnamed: 5", Value.vStr "A")]])]
          = [("S", [([] : Row)])] := by
        simp [restrictData, restrictRow, hn]
      rw [hres] at h
      have h1 : extractRefs [("S", [([] : Row)])] = .ok emptyRefSets := rfl
      have h2 : extractRefs [("S", [[("Unnamed: 5", Value.vStr "A")]])]
          = .ok ⟨[], ["A"], [], []⟩ := rfl
      rw [h1, h2] at h
      have h3 := ok_inj h
      simp [emptyRefSets] at h3
    have m9 : "Unnamed: 9" ∈ ls := by
      by_contra hn
      have h := hall [("S", [[("Unnamed: 9", Value.vStr "A")]])]
      have hres : restrictData ls [("S", [[("Unnamed: 9", Value.vStr "A")]])]
          = [("S", [([] : Row)])] := by
        simp [restrictData, restrictRow, hn]
      rw [hres] at h
      have h1 : extractRefs [("S", [([] : Row)])] = .ok emptyRefSets := rfl
      have h2 : extractRefs [("S", [[("Unnamed: 9", Value.vStr "A")]])]
          = .ok ⟨[], ["A"], [], []⟩ := rfl
      rw [h1, h2] at h
      have h3 := ok_inj h
      simp [emptyRefSets] at h3
    have m8 : "Unnamed: 8" ∈ ls := by
      by_contra hn
      have h := hall [("S", [[("Unnamed: 8", Value.vStr "A")]])]
      have hres : restrictData ls [("S", [[("Unnamed: 8", Value.vStr "A")]])]
          = [("S", [([] : Row)])] := by
        simp [restrictData, restrictRow, hn]
      rw [hres] at h
      have h1 : extractRefs [("S", [([] : Row)])] = .ok emptyRefSets := rfl
      have h2 : extractRefs [("S", [[("Unnamed: 8", Value.vStr "A")]])]
          = .ok ⟨[], [], [.vStr "A"], []⟩ := rfl
      rw [h1, h2] at h
      have h3 := ok_inj h
      simp [emptyRefSets] at h3
    have m7 : "Unnamed: 7" ∈ ls := by
      by_contra hn
      have h := hall [("S", [[("Unnamed: 7", Value.vStr "A")]])]
      have hres : restrictData ls [("S", [[("Unnamed: 7", Value.vStr "A")]])]
          = [("S", [([] : Row)])] := by
        simp [restrictData, restrictRow, hn]
      rw [hres] at h
      have h1 : extractRefs [("S", [([] : Row)])] = .ok emptyRefSets := rfl
      have h2 : extractRefs [("S", [[("Unnamed: 7", Value.vStr "A")]])]
          = .ok ⟨[], [], [], [.vStr "A"]⟩ := rfl
      rw [h1, h2] at h
      have h3 := ok_inj h
      simp [emptyRefSets] at h3
    have hsub : scanLabels.toFinset ⊆ ls.toFinset := by
      intro x hx
      rw [List.mem_toFinset] at hx ⊢
      have : x ∈ scanLabels := hx
      simp only [scanLabels, List.mem_cons, List.not_mem_nil, or_false] at this
      rcases this with rfl | rfl | rfl | rfl | rfl
      · exact m3
      · exact m5
      · exact m9
      · exact m8
      · exact m7
    have hcard := Finset.card_le_card hsub
    have h5c : scanLabels.toFinset.card = 5 :=
      List.toFinset_card_of_nodup (by decide)
    have hlsc := List.toFinset_card_le ls
    rw [h5c] at hcard
    rw [hlen] at hlsc
    omega
  · exact ⟨⟨[], ["a", ""], [], []⟩, rfl, by decide⟩

/-- C4 (amended): the extractor reads exactly the five fixed labels
`Unnamed: 3`, `Unnamed: 5`, `Unnamed: 9`, `Unnamed: 8`, `Unnamed: 7`
(restricting rows to them never changes the result), and collects
distinct truthy whole-cell values into the main, format and intensity
sets, while the accessory set holds distinct stripped comma segments. -/
theorem c4_amended :
    scanLabels.length = 5 ∧ scanLabels.Nodup ∧
    (∀ d, extractRefs (restrictData scanLabels d) = extractRefs d) ∧
    (∀ (d : List (String × List Row)) (S : RefSets), extractRefs d = .ok S →
      S.main_movements.Nodup ∧ S.accessory_movements.Nodup ∧
      S.workout_formats.Nodup ∧ S.intensity_levels.Nodup ∧
      (∀ v ∈ S.main_movements, v.truthy = true) ∧
      (∀ v ∈ S.workout_formats, v.truthy = true) ∧
      (∀ v ∈ S.intensity_levels, v.truthy = true)) := by
  refine ⟨rfl, by decide, extractRefs_restrict, ?_⟩
  intro d S h
  obtain ⟨hm, ha, hf, hi, -, hmt, hft, hit⟩ := extractRefs_inv h
  exact ⟨hm, ha, hf, hi, hmt, hft, hit⟩

/-- Witness for the amended C4 at a one-row workbook. -/
theorem c4_amended_witness :
    extractRefs (restrictData scanLabels [("S", [[("Unnamed: 3", Value.vStr "A")]])])
        = extractRefs [("S", [[("Unnamed: 3", Value.vStr "A")]])] ∧
    ((⟨[.vStr "A"], [], [], []⟩ : RefSets).main_movements.Nodup ∧
      (⟨[.vStr "A"], [], [], []⟩ : RefSets).accessory_movements.Nodup ∧
      (⟨[.vStr "A"], [], [], []⟩ : RefSets).workout_formats.Nodup ∧
      (⟨[.vStr "A"], [], [], []⟩ : RefSets).intensity_levels.Nodup ∧
      (∀ v ∈ (⟨[.vStr "A"], [], [], []⟩ : RefSets).main_movements, v.truthy = true) ∧
      (∀ v ∈ (⟨[.vStr "A"], [], [], []⟩ : RefSets).workout_formats, v.truthy = true) ∧
      (∀ v ∈ (⟨[.vStr "A"], [], [], []⟩ : RefSets).intensity_levels, v.truthy = true)) :=
  ⟨c4_amended.2.2.1 _,
    c4_amended.2.2.2 [("S", [[("Unnamed: 3", Value.vStr "A")]])] _ rfl⟩

/-- C5: a truthy string cell in either accessory column is split on
commas and each stripped segment is inserted individually, while truthy
cells in the main-movement, format and intensity columns are inserted
whole; the cell `"Push-ups, Burpees"` yields exactly the two entries
`"Push-ups"` and `"Burpees"`, not the combined string. -/
theorem c5_split_vs_whole (S : RefSets) (row : Row) (S' : RefSets)
    (h : processRow S row = .ok S') :
    (∀ s : String, rowGet row "Unnamed: 5" = some (.vStr s) →
      (Value.vStr s).truthy = true →
      ∀ seg ∈ pySplitComma s, pyStrip seg ∈ S'.accessory_movements) ∧
    (∀ s : String, rowGet row "Unnamed: 9" = some (.vStr s) →
      (Value.vStr s).truthy = true →
      ∀ seg ∈ pySplitComma s, pyStrip seg ∈ S'.accessory_movements) ∧
    (∀ v : Value, rowGet row "Unnamed: 3" = some v → v.truthy = true →
      v ∈ S'.main_movements) ∧
    (∀ v : Value, rowGet row "Unnamed: 8" = some v → v.truthy = true →
      v ∈ S'.workout_formats) ∧
    (∀ v : Value, rowGet row "Unnamed: 7" = some v → v.truthy = true →
      v ∈ S'.intensity_levels) ∧
    (∃ S0 : RefSets,
      extractRefs [("Sheet1", [[("Unnamed: 5", Value.vStr "Push-ups, Burpees")]])]
        = .ok S0 ∧ S0.accessory_movements = ["Push-ups", "Burpees"]) := by
  obtain ⟨S2, S3, h5, h9, rfl⟩ := processRow_ok_elim h
  obtain ⟨m5, a5, f5, i5⟩ := addAcc_ok_mono h5
  obtain ⟨m9, a9, f9, i9⟩ := addAcc_ok_mono h9
  obtain ⟨fF, mF, aF, iF⟩ := addFormat_mono S3 row
  obtain ⟨iI, mI, aI, fI⟩ := addIntensity_mono (addWorkoutFormat S3 row) row
  refine ⟨?_, ?_, ?_, ?_, ?_, ?_⟩
  · intro s hg ht seg hseg
    rw [aI, aF]
    exact a9 _ (addAcc_adds hg ht h5 seg hseg)
  · intro s hg ht seg hseg
    rw [aI, aF]
    exact addAcc_adds hg ht h9 seg hseg
  · intro v hg ht
    rw [mI, mF, m9, m5]
    exact addMain_adds hg ht
  · intro v hg ht
    rw [fI]
    exact addFormat_adds hg ht
  · intro v hg ht
    exact addIntensity_adds hg ht
  · exact ⟨⟨[], ["Push-ups", "Burpees"], [], []⟩, rfl, rfl⟩

/-- Witness for C5 on one concrete row. -/
theorem c5_split_vs_whole_witness :
    processRow emptyRefSets
        [("Unnamed: 3", Value.vStr "Squat"),
          ("Unnamed: 5", Value.vStr "Push-ups, Burpees")]
      = .ok ⟨[.vStr "Squat"], ["Push-ups", "Burpees"], [], []⟩ ∧
    ((∀ s : String, rowGet [("Unnamed: 3", Value.vStr "Squat"),
          ("Unnamed: 5", Value.vStr "Push-ups, Burpees")] "Unnamed: 5"
            = some (.vStr s) →
        (Value.vStr s).truthy = true →
        ∀ seg ∈ pySplitComma s, pyStrip seg ∈
          (⟨[.vStr "Squat"], ["Push-ups", "Burpees"], [], []⟩ : RefSets).accessory_movements) ∧
      (∀ s : String, rowGet [("Unnamed: 3", Value.vStr "Squat"),
          ("Unnamed: 5", Value.vStr "Push-ups, Burpees")] "Unnamed: 9"
            = some (.vStr s) →
        (Value.vStr s).truthy = true →
        ∀ seg ∈ pySplitComma s, pyStrip seg ∈
          (⟨[.vStr "Squat"], ["Push-ups", "Burpees"], [], []⟩ : RefSets).accessory_movements) ∧
      (∀ v : Value, rowGet [("Unnamed: 3", Value.vStr "Squat"),
          ("Unnamed: 5", Value.vStr "Push-ups, Burpees")] "Unnamed: 3" = some v →
        v.truthy = true →
        v ∈ (⟨[.vStr "Squat"], ["Push-ups", "Burpees"], [], []⟩ : RefSets).main_movements) ∧
      (∀ v : Value, rowGet [("Unnamed: 3", Value.vStr "Squat"),
          ("Unnamed: 5", Value.vStr "Push-ups, Burpees")] "Unnamed: 8" = some v →
        v.truthy = true →
        v ∈ (⟨[.vStr "Squat"], ["Push-ups", "Burpees"], [], []⟩ : RefSets).workout_formats) ∧
      (∀ v : Value, rowGet [("Unnamed: 3", Value.vStr "Squat"),
          ("Unnamed: 5", Value.vStr "Push-ups, Burpees")] "Unnamed: 7" = some v →
        v.truthy = true →
        v ∈ (⟨[.vStr "Squat"], ["Push-ups", "Burpees"], [], []⟩ : RefSets).intensity_levels) ∧
      (∃ S0 : RefSets,
        extractRefs [("Sheet1", [[("Unnamed: 5", Value.vStr "Push-ups, Burpees")]])]
          = .ok S0 ∧ S0.accessory_movements = ["Push-ups", "Burpees"])) :=
  ⟨rfl, c5_split_vs_whole emptyRefSets _ _ rfl⟩

/-- A successful `sorted()` over a value set returns the merge sort of
its strings, and certifies that every member was a string. -/
theorem pySortedVals_ok {l : List Value} {xs : List String}
    (h : pySortedVals l = .ok xs) :
    xs = (l.filterMap vStrOf).mergeSort strLe ∧
    l.all (fun v => (vStrOf v).isSome) = true := by
  unfold pySortedVals at h
  split at h
  next hc => exact ⟨(ok_inj h).symm, hc⟩
  next hc => exact Except.noConfusion h

/-- The comparison used by the writers is a sort of `≤` on strings. -/
theorem mergeSort_sorted_le (l : List String) :
    (l.mergeSort strLe).Sorted (fun a b => a ≤ b) := by
  have htr : ∀ a b c : String, strLe a b → strLe b c → strLe a c := by
    intro a b c hab hbc
    simp only [strLe, decide_eq_true_eq] at *
    exact le_trans hab hbc
  have hto : ∀ a b : String, strLe a b || strLe b a := by
    intro a b
    rcases le_total a b with h | h <;> simp [strLe, h]
  have hp := List.sorted_mergeSort htr hto l
  exact hp.imp fun hab => by simpa [strLe] using hab

/-- C8: the movements file is the two fixed sections in order, each a lexicographically sorted bullet list of its set (sorted ascending, so Deadlift lines precede Squat lines), and the format and intensity sets each get their own single-section sorted file. -/
theorem c8_markdown (fs : FS) (wb : List RawSheet) (S : RefSets)
    (M F I : List String)
    (hfs : fs.workouts_xlsx = some wb)
    (hE : extractRefs (readSheets wb) = .ok S)
    (hM : pySortedVals S.main_movements = .ok M)
    (hF : pySortedVals S.workout_formats = .ok F)
    (hI : pySortedVals S.intensity_levels = .ok I) :
    ∃ A : List String,
      M.Sorted (fun a b => a ≤ b) ∧ M.Perm (S.main_movements.filterMap vStrOf) ∧
      (∀ M2 : List String, M2.Sorted (fun a b => a ≤ b) →
        M2.Perm (S.main_movements.filterMap vStrOf) → M2 = M) ∧
      A.Sorted (fun a b => a ≤ b) ∧ A.Perm S.accessory_movements ∧
      F.Sorted (fun a b => a ≤ b) ∧ F.Perm (S.workout_formats.filterMap vStrOf) ∧
      I.Sorted (fun a b => a ≤ b) ∧ I.Perm (S.intensity_levels.filterMap vStrOf) ∧
      (parse_workouts_excel fs).fs.movements_md
        = some ("# Movements Reference\n\n" ++ "## Main Movements\n" ++ mdBullets M
            ++ "\n## Accessory/Finisher Movements\n" ++ mdBullets A) ∧
      (parse_workouts_excel fs).fs.workout_formats_md
        = some ("# Workout Formats Reference\n\n" ++ mdBullets F) ∧
      (parse_workouts_excel fs).fs.intensity_levels_md
        = some ("# Intensity Levels Reference\n\n" ++ mdBullets I) := by
  obtain ⟨hMeq, -⟩ := pySortedVals_ok hM
  obtain ⟨hFeq, -⟩ := pySortedVals_ok hF
  obtain ⟨hIeq, -⟩ := pySortedVals_ok hI
  subst hMeq hFeq hIeq
  refine ⟨S.accessory_movements.mergeSort strLe,
    mergeSort_sorted_le _, List.mergeSort_perm _ _, ?_,
    mergeSort_sorted_le _, List.mergeSort_perm _ _,
    mergeSort_sorted_le _, List.mergeSort_perm _ _,
    mergeSort_sorted_le _, List.mergeSort_perm _ _, ?_, ?_, ?_⟩
  · intro M2 hs hp
    exact List.eq_of_perm_of_sorted
      (hp.trans (List.mergeSort_perm _ _).symm) hs (mergeSort_sorted_le _)
  · rw [parse_ok hfs hE hM hF hI]
  · rw [parse_ok hfs hE hM hF hI]
  · rw [parse_ok hfs hE hM hF hI]

/-- Witness for C8 on a workbook whose main movements are Squat and
Deadlift. -/
theorem c8_markdown_witness :
    ∃ M A : List String,
      M.Sorted (fun a b => a ≤ b) ∧
      M.Perm ["Squat", "Deadlift"] ∧
      (parse_workouts_excel
          ⟨some [⟨"S", [[("Unnamed: 3", RawValue.cell (Value.vStr "Squat"))],
            [("Unnamed: 3", RawValue.cell (Value.vStr "Deadlift"))]]⟩],
            none, none, none, none⟩).fs.movements_md
        = some ("# Movements Reference\n\n" ++ "## Main Movements\n" ++ mdBullets M
            ++ "\n## Accessory/Finisher Movements\n" ++ mdBullets A) := by
  obtain ⟨A, hMs, hMp, -, -, -, -, -, -, -, hmov, -, -⟩ :=
    c8_markdown
      ⟨some [⟨"S", [[("Unnamed: 3", RawValue.cell (Value.vStr "Squat"))],
        [("Unnamed: 3", RawValue.cell (Value.vStr "Deadlift"))]]⟩],
        none, none, none, none⟩
      [⟨"S", [[("Unnamed: 3", RawValue.cell (Value.vStr "Squat"))],
        [("Unnamed: 3", RawValue.cell (Value.vStr "Deadlift"))]]⟩]
      ⟨[Value.vStr "Squat", Value.vStr "Deadlift"], [], [], []⟩
      _ _ _ rfl rfl rfl rfl rfl
  exact ⟨_, A, hMs, hMp, hmov⟩

/-- The file system left by a fully successful run. -/
theorem parse_ok_fs {fs : FS} {wb : List RawSheet} {S : RefSets}
    {M F I : List String}
    (hfs : fs.workouts_xlsx = some wb)
    (hE : extractRefs (readSheets wb) = .ok S)
    (hM : pySortedVals S.main_movements = .ok M)
    (hF : pySortedVals S.workout_formats = .ok F)
    (hI : pySortedVals S.intensity_levels = .ok I) :
    (parse_workouts_excel fs).fs = { fs with
      workouts_data_json := some (jsonDump (sheetsToObj (readSheets wb)))
      movements_md := some ("# Movements Reference\n\n" ++ "## Main Movements\n"
        ++ mdBullets M ++ "\n## Accessory/Finisher Movements\n"
        ++ mdBullets (S.accessory_movements.mergeSort strLe))
      workout_formats_md := some ("# Workout Formats Reference\n\n" ++ mdBullets F)
      intensity_levels_md := some ("# Intensity Levels Reference\n\n" ++ mdBullets I) } := by
  rw [parse_ok hfs hE hM hF hI]

/-- Running the program again on the file system a successful run left
behind rewrites every output file with identical contents. -/
theorem parse_fixpoint {fs : FS} {wb : List RawSheet} {S : RefSets}
    {M F I : List String}
    (hfs : fs.workouts_xlsx = some wb)
    (hE : extractRefs (readSheets wb) = .ok S)
    (hM : pySortedVals S.main_movements = .ok M)
    (hF : pySortedVals S.workout_formats = .ok F)
    (hI : pySortedVals S.intensity_levels = .ok I) :
    (parse_workouts_excel (parse_workouts_excel fs).fs).fs
      = (parse_workouts_excel fs).fs := by
  have h1 := parse_ok_fs hfs hE hM hF hI
  have hfs2 : (parse_workouts_excel fs).fs.workouts_xlsx = some wb := by
    rw [h1]
    exact hfs
  have h2 := parse_ok_fs hfs2 hE hM hF hI
  rw [h2, h1]

/-- C9: two runs on equal input workbooks print the same lines, write the
same JSON document, die the same way or not at all, and when they
complete they write identical markdown files; rerunning on the file
system a completed run produced changes nothing. -/
theorem c9_idempotent (fs fs2 : FS) (wb : List RawSheet)
    (h : fs.workouts_xlsx = some wb) (h2 : fs2.workouts_xlsx = some wb) :
    (parse_workouts_excel fs).fs.workouts_data_json
      = (parse_workouts_excel fs2).fs.workouts_data_json ∧
    (parse_workouts_excel fs).stdout = (parse_workouts_excel fs2).stdout ∧
    (parse_workouts_excel fs).uncaught = (parse_workouts_excel fs2).uncaught ∧
    ((parse_workouts_excel fs).uncaught = none →
      (parse_workouts_excel fs).fs.movements_md
          = (parse_workouts_excel fs2).fs.movements_md ∧
      (parse_workouts_excel fs).fs.workout_formats_md
          = (parse_workouts_excel fs2).fs.workout_formats_md ∧
      (parse_workouts_excel fs).fs.intensity_levels_md
          = (parse_workouts_excel fs2).fs.intensity_levels_md) ∧
    ((parse_workouts_excel fs).uncaught = none →
      (parse_workouts_excel (parse_workouts_excel fs).fs).fs
        = (parse_workouts_excel fs).fs) := by
  cases hE : extractRefs (readSheets wb) with
  | error e =>
    rw [parse_extract_error h hE, parse_extract_error h2 hE]
    refine ⟨rfl, rfl, rfl, ?_, ?_⟩ <;> intro hno <;> exact Option.noConfusion hno
  | ok S =>
    cases hM : pySortedVals S.main_movements with
    | error e =>
      rw [parse_msort_error h hE hM, parse_msort_error h2 hE hM]
      refine ⟨rfl, rfl, rfl, ?_, ?_⟩ <;> intro hno <;> exact Option.noConfusion hno
    | ok M =>
      cases hF : pySortedVals S.workout_formats with
      | error e =>
        rw [parse_fsort_error h hE hM hF, parse_fsort_error h2 hE hM hF]
        refine ⟨rfl, rfl, rfl, ?_, ?_⟩ <;> intro hno <;> exact Option.noConfusion hno
      | ok F =>
        cases hI : pySortedVals S.intensity_levels with
        | error e =>
          rw [parse_isort_error h hE hM hF hI, parse_isort_error h2 hE hM hF hI]
          refine ⟨rfl, rfl, rfl, ?_, ?_⟩ <;> intro hno <;> exact Option.noConfusion hno
        | ok I =>
          refine ⟨?_, ?_, ?_, fun hno => ⟨?_, ?_, ?_⟩, fun hno => ?_⟩ <;>
            first
            | (rw [parse_ok h hE hM hF hI, parse_ok h2 hE hM hF hI])
            | exact parse_fixpoint h hE hM hF hI

/-- Witness for C9 on a pair of file systems with the same workbook but
different stale outputs. -/
theorem c9_idempotent_witness :
    (⟨some [⟨"S", [[("Unnamed: 3", RawValue.cell (Value.vStr "x"))]]⟩],
        none, none, none, none⟩ : FS).workouts_xlsx
      = some [⟨"S", [[("Unnamed: 3", RawValue.cell (Value.vStr "x"))]]⟩] ∧
    (⟨some [⟨"S", [[("Unnamed: 3", RawValue.cell (Value.vStr "x"))]]⟩],
        some (JVal.jstr "stale"), some "a", some "b", some "c"⟩ : FS).workouts_xlsx
      = some [⟨"S", [[("Unnamed: 3", RawValue.cell (Value.vStr "x"))]]⟩] ∧
    (parse_workouts_excel ⟨some [⟨"S", [[("Unnamed: 3", RawValue.cell (Value.vStr "x"))]]⟩],
        none, none, none, none⟩).fs.workouts_data_json
      = (parse_workouts_excel ⟨some [⟨"S", [[("Unnamed: 3", RawValue.cell (Value.vStr "x"))]]⟩],
        some (JVal.jstr "stale"), some "a", some "b", some "c"⟩).fs.workouts_data_json := by
  refine ⟨rfl, rfl, ?_⟩
  have := c9_idempotent
    ⟨some [⟨"S", [[("Unnamed: 3", RawValue.cell (Value.vStr "x"))]]⟩],
      none, none, none, none⟩
    ⟨some [⟨"S", [[("Unnamed: 3", RawValue.cell (Value.vStr "x"))]]⟩],
      some (JVal.jstr "stale"), some "a", some "b", some "c"⟩
    [⟨"S", [[("Unnamed: 3", RawValue.cell (Value.vStr "x"))]]⟩] rfl rfl
  exact this.1

/-- C10: extraction is split-safe exactly on string cells: a non-string
truthy value under an accessory column raises AttributeError after the
JSON file has been written and before any markdown file is touched;
when every truthy accessory cell is a string the extraction completes;
and non-string truthy values in the main, format and intensity columns
are accepted and stored as-is. -/
theorem c10_split_safety :
    ((parse_workouts_excel
        ⟨some [⟨"S1", [[("Unnamed: 5", RawValue.cell (Value.vNum 3))]]⟩],
          none, none, none, none⟩).uncaught = some .attributeError ∧
      (∃ j, (parse_workouts_excel
        ⟨some [⟨"S1", [[("Unnamed: 5", RawValue.cell (Value.vNum 3))]]⟩],
          none, none, none, none⟩).fs.workouts_data_json = some j) ∧
      (parse_workouts_excel
        ⟨some [⟨"S1", [[("Unnamed: 5", RawValue.cell (Value.vNum 3))]]⟩],
          none, none, none, none⟩).fs.movements_md = none ∧
      (parse_workouts_excel
        ⟨some [⟨"S1", [[("Unnamed: 5", RawValue.cell (Value.vNum 3))]]⟩],
          none, none, none, none⟩).fs.workout_formats_md = none ∧
      (parse_workouts_excel
        ⟨some [⟨"S1", [[("Unnamed: 5", RawValue.cell (Value.vNum 3))]]⟩],
          none, none, none, none⟩).fs.intensity_levels_md = none) ∧
    (∀ d : List (String × List Row), (∀ e ∈ d, ∀ r ∈ e.2, rowOkB r = true) →
      ∃ S, extractRefs d = .ok S) ∧
    (∃ S : RefSets,
      extractRefs [("S1", [[("Unnamed: 3", Value.vNum 7), ("Unnamed: 8", Value.vNum 8),
        ("Unnamed: 7", Value.vNum 9)]])] = .ok S ∧
      Value.vNum 7 ∈ S.main_movements ∧ Value.vNum 8 ∈ S.workout_formats ∧
      Value.vNum 9 ∈ S.intensity_levels) := by
  refine ⟨⟨rfl, ⟨_, rfl⟩, rfl, rfl, rfl⟩, fun d h => extractRefs_total h, ?_⟩
  exact ⟨⟨[.vNum 7], [], [.vNum 8], [.vNum 9]⟩, rfl, by decide, by decide, by decide⟩

/-- Witness for the totality part of C10. -/
theorem c10_split_safety_witness :
    (∀ e ∈ ([("S1", [[("Unnamed: 3", Value.vStr "x")]])] : List (String × List Row)),
        ∀ r ∈ e.2, rowOkB r = true) ∧
    ∃ S, extractRefs [("S1", [[("Unnamed: 3", Value.vStr "x")]])] = .ok S :=
  ⟨by decide, c10_split_safety.2.1 _ (by decide)⟩
